import Mathlib

/-!
Verification of the nitrogen render/compute graph engine core.

This file gives a shallow embedding of the parts of the source relevant to the
frozen claims and proves theorems about them:

* `src/nitrogen/src/util/storage.rs` — the generational handle arena
  (`Slab`, `Storage`, `Handle`).  The `slab` crate (version 0.4, an external
  dependency) is embedded with its vacant-entry free list, because
  `Storage::insert`/`remove`/`get` behaviour depends on it.
* `src/nitrogen/src/resources/buffer.rs` — the buffer store with host-visible
  classification, size padding and upload bounds checks.
* `src/nitrogen/src/graph/mod.rs` — `GraphStorage::compile` and the
  resource-selection portion of `GraphStorage::execute`, with the pieces that
  live in files absent from the source tree (resolver internals, hashing,
  `prepare`, `BackbufferUsage::add_graph`) abstracted as parameters.
* `src/nitrogen/src/graph/execution/execute.rs` — the descriptor-write
  emission per resolved read/write.

Rust `HashMap`/`HashSet`/`BTreeSet` values are embedded as association lists
and lists with insertion-order append; machine integers are embedded as `Nat`
(no arithmetic in the claims overflows); Rust panics are embedded as `none`
or a dedicated outcome constructor.
-/

set_option autoImplicit false

namespace Nitrogen

universe u v

/-! ## Association list helpers (embedding of HashMap / BTreeSet operations) -/

/-- Lookup in an association list, first match wins (embeds `HashMap::get`). -/
def alookup {κ : Type u} {α : Type v} [DecidableEq κ] : List (κ × α) → κ → Option α
  | [], _ => none
  | (k, v) :: rest, key => if k = key then some v else alookup rest key

/-- Insert-or-overwrite in an association list (embeds `HashMap::insert`). -/
def ainsert {κ : Type u} {α : Type v} [DecidableEq κ] : List (κ × α) → κ → α → List (κ × α)
  | [], k, v => [(k, v)]
  | (k', v') :: rest, k, v =>
    if k' = k then (k, v) :: rest else (k', v') :: ainsert rest k v

/-- Insert into a set represented as a duplicate-free list
(embeds `HashSet::insert` / `BTreeSet::insert`). -/
def sinsert {κ : Type u} [DecidableEq κ] (s : List κ) (x : κ) : List κ :=
  if x ∈ s then s else s ++ [x]

/-! ## `util/storage.rs` : generational handle arena

The arena is `Storage<T> { generations: Vec<Generation>, entries: Slab<T> }`.
The `slab` 0.4 crate keeps a vector of entries (occupied, or vacant holding the
next free index) plus `next`, the index handed out by `vacant_entry().key()`.
`Slab::remove` on a vacant or out-of-range key panics (embedded as `none`). -/

/-- An entry of the `slab::Slab` backing vector: vacant entries store the next
free-list index. -/
inductive SlabEntry (T : Type u) where
  | vacant (next : Nat)
  | occupied (val : T)
deriving DecidableEq, Repr

/-- Embedding of `slab::Slab<T>`: backing entries, occupied count, and head of
the vacant free list (`next`). -/
structure Slab (T : Type u) where
  entries : List (SlabEntry T)
  len : Nat
  next : Nat
deriving DecidableEq, Repr

/-- Embedding of `Slab::new()`. -/
def Slab.empty {T : Type u} : Slab T := ⟨[], 0, 0⟩

/-- Embedding of `Slab::vacant_entry().key()`: the key the next insertion uses. -/
def Slab.vacantKey {T : Type u} (s : Slab T) : Nat := s.next

/-- Embedding of `VacantEntry::insert` at a given key: grows the vector when the
key is one past the end, otherwise fills the vacant slot and advances the free
list.  Inserting at an occupied or out-of-range key panics in the crate
(embedded as `none`); `Storage` only ever inserts at `vacantKey`. -/
def Slab.insertAt {T : Type u} (s : Slab T) (key : Nat) (val : T) : Option (Slab T) :=
  if key = s.entries.length then
    some ⟨s.entries ++ [SlabEntry.occupied val], s.len + 1, key + 1⟩
  else
    match s.entries[key]? with
    | some (SlabEntry.vacant n) =>
      some ⟨s.entries.set key (SlabEntry.occupied val), s.len + 1, n⟩
    | _ => none

/-- Embedding of `Slab::get`: `some` exactly on occupied slots. -/
def Slab.get? {T : Type u} (s : Slab T) (key : Nat) : Option T :=
  match s.entries[key]? with
  | some (SlabEntry.occupied v) => some v
  | _ => none

/-- Embedding of `Slab::remove`: takes the value of an occupied slot, marks the
slot vacant, and points the free list at it.  On a vacant or out-of-range key
the crate panics ("invalid key"); that outcome is embedded as `none`. -/
def Slab.removeKey {T : Type u} (s : Slab T) (key : Nat) : Option (T × Slab T) :=
  match s.entries[key]? with
  | some (SlabEntry.occupied v) =>
    some (v, ⟨s.entries.set key (SlabEntry.vacant s.next), s.len - 1, key⟩)
  | _ => none

/-- Embedding of `Handle<T>(Id, Generation, PhantomData)`; the type tag is
carried by the surrounding `Storage`'s element type. -/
structure Handle where
  id : Nat
  generation : Nat
deriving DecidableEq, Repr

/-- Embedding of `InsertOp`. -/
inductive InsertOp where
  | grow
  | inplace
deriving DecidableEq, Repr

/-- Embedding of `Storage<T>`. -/
structure Storage (T : Type u) where
  generations : List Nat
  entries : Slab T
deriving DecidableEq, Repr

/-- Embedding of `Storage::new()`. -/
def Storage.new {T : Type u} : Storage T := ⟨[], Slab.empty⟩

/-- Embedding of `Storage::insert`: takes the slab's vacant key, pushes
generation 0 when the generations vector must grow, otherwise bumps the slot's
generation, and inserts the value into the slab at that key.  The two panic
sources (indexing `generations[key]` out of range, slab-invariant violation)
are embedded as `none`; neither occurs on states reachable from `Storage.new`. -/
def Storage.insert {T : Type u} (s : Storage T) (data : T) :
    Option (Handle × InsertOp × Storage T) :=
  let key := s.entries.vacantKey
  let gens :=
    if s.generations.length ≤ key then s.generations ++ [0]
    else s.generations.set key (s.generations.getD key 0 + 1)
  let op := if s.generations.length ≤ key then InsertOp.grow else InsertOp.inplace
  match gens[key]?, s.entries.insertAt key data with
  | some generation, some entries => some (⟨key, generation⟩, op, ⟨gens, entries⟩)
  | _, _ => none

/-- Embedding of `Storage::is_alive`: the handle's index is within the
generations vector and its generation equals the stored one. -/
def Storage.is_alive {T : Type u} (s : Storage T) (h : Handle) : Bool :=
  if s.generations.length > h.id then
    decide (s.generations.getD h.id 0 = h.generation)
  else
    false

/-- Outcome of `Storage::remove`: the value (with the post-state), a "not
found" signal, or a process abort (the `slab::Slab::remove` panic). -/
inductive RemoveResult (T : Type u) where
  | removed (val : T) (st : Storage T)
  | notFound
  | aborted
deriving DecidableEq, Repr

/-- Embedding of `Storage::remove`: when `is_alive` holds the value is removed
from the slab (which panics — `aborted` — if the slot is vacant), otherwise
"not found" is signalled.  The generations vector is not touched. -/
def Storage.remove {T : Type u} (s : Storage T) (h : Handle) : RemoveResult T :=
  if s.is_alive h then
    match s.entries.removeKey h.id with
    | some (v, entries) => RemoveResult.removed v ⟨s.generations, entries⟩
    | none => RemoveResult.aborted
  else
    RemoveResult.notFound

/-- Embedding of `Storage::get`: the stored value when the handle is alive and
the slab slot is occupied. -/
def Storage.get {T : Type u} (s : Storage T) (h : Handle) : Option T :=
  if s.is_alive h then s.entries.get? h.id else none

/-- Embedding of `Storage::get_mut` used as a read-modify-write: replaces the
value behind a live handle, leaving the storage unchanged for dead handles. -/
def Storage.update {T : Type u} (s : Storage T) (h : Handle) (v : T) : Storage T :=
  if s.is_alive h then
    { s with entries := { s.entries with entries := s.entries.entries.set h.id (SlabEntry.occupied v) } }
  else
    s

/-! ## `resources/buffer.rs` : buffer store

`BufferStorage` wraps a `Storage<Buffer>` with two classification sets
(`BTreeSet<usize>` keyed by slot index).  Raw allocator buffers are embedded
as byte lists held in a device-memory map keyed by the owning slot index; the
external allocator collaborator always hands back such a fresh buffer (its
failure path, `BufferError::CantCreate`, merely propagates an external error
and is outside the embedded state). -/

/-- Embedding of `Buffer`: only the stored (padded) byte size is observable by
the claims; the raw allocator buffer is the device-memory entry of the slot. -/
structure Buffer where
  size : Nat
deriving DecidableEq, Repr

/-- Embedding of `BufferError`. -/
inductive BufferError where
  | handleInvalid
  | cantCreate
  | mappingError
  | uploadOutOfBounds
  | cantWriteToBuffer
deriving DecidableEq, Repr

/-- Device memory: the bytes of each raw buffer, keyed by the slot index of the
owning `Storage` entry. -/
abbrev DeviceMem := List (Nat × List Nat)

/-- Wrapping 64-bit addition: the source's `u64` (and 64-bit `usize`)
arithmetic overflows by wrapping in release builds, so every addition whose
overflow is observable is embedded with an explicit `% 2 ^ 64`. -/
def wrapAdd64 (a b : Nat) : Nat := (a + b) % (2 ^ 64)

/-- The bytes of a mapped range after
`writer[offset..offset + data.len()].copy_from_slice(data)`. -/
def spliceBytes (bytes : List Nat) (offset : Nat) (data : List Nat) : List Nat :=
  bytes.take offset ++ data ++ bytes.drop (offset + data.length)

/-- Embedding of `write_data_to_buffer` on one raw buffer's bytes: the device
mapping over the buffer's whole range has been acquired at this point; the
slice write `writer[offset..offset + data.len()]` copies the data when it lies
inside the range and panics otherwise (`none`) — both when the write simply
does not fit and when the 64-bit index arithmetic has wrapped, since a wrapped
end lies below `offset` and slice indexing rejects `start > end`. -/
def write_data_to_buffer (bytes : List Nat) (offset : Nat) (data : List Nat) :
    Option (List Nat) :=
  if offset + data.length ≤ bytes.length then some (spliceBytes bytes offset data)
  else none

/-- Embedding of `BufferStorage`. -/
structure BufferStorage where
  cpu_visible : List Nat
  device_local : List Nat
  buffers : Storage Buffer
  atom_size : Nat
deriving DecidableEq, Repr

/-- Embedding of `BufferStorage::new`. -/
def BufferStorage.new (atomSize : Nat) : BufferStorage :=
  ⟨[], [], Storage.new, atomSize⟩

/-- Embedding of the size-padding block shared by `cpu_visible_create` and
`device_local_create`: "size should be a multiple of the
non-coherent-atom-size".  The padding addition is a `u64` add and wraps when
the requested size lies within one atom of `2 ^ 64`; the subtraction never
underflows because `size % atomSize < atomSize`. -/
def paddedSize (atomSize size : Nat) : Nat :=
  let invPad := size % atomSize
  if invPad ≠ 0 then wrapAdd64 size (atomSize - invPad) else size

/-- Embedding of `BufferStorage::cpu_visible_create`: pads the requested size,
allocates a raw buffer of the padded size, stores it and classifies the new
slot as cpu-visible.  `none` covers the arena-insert panics, never reached
from well-formed stores. -/
def BufferStorage.cpu_visible_create (bs : BufferStorage) (mem : DeviceMem) (size : Nat) :
    Option (Handle × BufferStorage × DeviceMem) :=
  let sz := paddedSize bs.atom_size size
  match bs.buffers.insert ⟨sz⟩ with
  | some (handle, _, buffers) =>
    some (handle,
      { bs with buffers := buffers, cpu_visible := sinsert bs.cpu_visible handle.id },
      ainsert mem handle.id (List.replicate sz 0))
  | none => none

/-- Embedding of `BufferStorage::device_local_create`: identical padding and
storage, classifying the slot as device-local; device-local memory is not host
mapped, so no device-memory entry is created. -/
def BufferStorage.device_local_create (bs : BufferStorage) (size : Nat) :
    Option (Handle × BufferStorage) :=
  let sz := paddedSize bs.atom_size size
  match bs.buffers.insert ⟨sz⟩ with
  | some (handle, _, buffers) =>
    some (handle,
      { bs with buffers := buffers, device_local := sinsert bs.device_local handle.id })
  | none => none

/-- Outcome of `cpu_visible_upload`: a completed write, a returned typed
error with the (untouched) device memory, or a process abort inside
`write_data_to_buffer` — reached only after the bounds check passed (possibly
because the `u64` sum wrapped) and the device mapping was acquired, i.e. after
a device-side call was already made. -/
inductive UploadResult where
  | ok (mem : DeviceMem)
  | error (e : BufferError) (mem : DeviceMem)
  | abortedInWrite
deriving DecidableEq, Repr

/-- Embedding of `BufferStorage::cpu_visible_upload` over the byte slice of
the upload data (`to_u8_slice` flattens the typed slice into bytes): reject
slots not classified cpu-visible, then stale handles, then offsets whose
wrapping `u64` sum `offset + len` exceeds the stored (padded) size; only then
acquire the device mapping and write.  Every returned error carries the device
memory unchanged; when the bounds check only passed because the sum wrapped,
the slice write inside the acquired mapping panics (`abortedInWrite`). -/
def BufferStorage.cpu_visible_upload (bs : BufferStorage) (mem : DeviceMem) (h : Handle)
    (offset : Nat) (data : List Nat) : UploadResult :=
  if h.id ∈ bs.cpu_visible then
    match bs.buffers.get h with
    | some buffer =>
      if wrapAdd64 offset data.length ≤ buffer.size then
        match write_data_to_buffer ((alookup mem h.id).getD []) offset data with
        | some bytes => UploadResult.ok (ainsert mem h.id bytes)
        | none => UploadResult.abortedInWrite
      else
        UploadResult.error BufferError.uploadOutOfBounds mem
    | none => UploadResult.error BufferError.handleInvalid mem
  else
    UploadResult.error BufferError.handleInvalid mem

/-! ## `old_graph/builder.rs` : per-pass declaration builder -/

/-- Modelled from the spec: per-resource creation parameters ("declare resource
creation (name, parameters)").  The defining file is not under src/ and no
claim inspects the parameters, so they are embedded as a unit value. -/
abbrev ImageCreateInfo := Unit

/-- Resource and pass names (`CowString`). -/
abbrev ResourceName := String

/-- Embedding of `GraphBuilder`: the `HashMap` declaration tables become
association lists, the `HashSet` a duplicate-free list. -/
structure GraphBuilder where
  enabled : Bool
  images_create : List (ResourceName × ImageCreateInfo)
  images_copy : List (ResourceName × ResourceName)
  images_move : List (ResourceName × ResourceName)
  images_read : List (ResourceName × Nat)
  images_write : List (ResourceName × Nat)
  backbuffer_images : List ResourceName
deriving DecidableEq, Repr

/-- Embedding of `GraphBuilder::new` (`Default::default()`): every table empty
and `enabled: false`. -/
def GraphBuilder.new : GraphBuilder :=
  ⟨false, [], [], [], [], [], []⟩

/-- Embedding of `GraphBuilder::enable`. -/
def GraphBuilder.enable (b : GraphBuilder) : GraphBuilder :=
  { b with enabled := true }

/-- Embedding of `GraphBuilder::image_create`. -/
def GraphBuilder.image_create (b : GraphBuilder) (name : ResourceName)
    (info : ImageCreateInfo) : GraphBuilder :=
  { b with images_create := ainsert b.images_create name info }

/-- Embedding of `GraphBuilder::image_copy` (keyed by the new name). -/
def GraphBuilder.image_copy (b : GraphBuilder) (src new : ResourceName) : GraphBuilder :=
  { b with images_copy := ainsert b.images_copy new src }

/-- Embedding of `GraphBuilder::image_move` (keyed by the source name). -/
def GraphBuilder.image_move (b : GraphBuilder) (src new : ResourceName) : GraphBuilder :=
  { b with images_move := ainsert b.images_move src new }

/-- Embedding of `GraphBuilder::image_read`. -/
def GraphBuilder.image_read (b : GraphBuilder) (name : ResourceName) (binding : Nat) :
    GraphBuilder :=
  { b with images_read := ainsert b.images_read name binding }

/-- Embedding of `GraphBuilder::image_write`. -/
def GraphBuilder.image_write (b : GraphBuilder) (name : ResourceName) (binding : Nat) :
    GraphBuilder :=
  { b with images_write := ainsert b.images_write name binding }

/-- Embedding of `GraphBuilder::backbuffer_image`. -/
def GraphBuilder.backbuffer_image (b : GraphBuilder) (name : ResourceName) : GraphBuilder :=
  { b with backbuffer_images := sinsert b.backbuffer_images name }

/-! ## `graph/mod.rs` : graph compilation and execution

The resolver (`graph/resolve.rs`), execution-graph derivation
(`graph/execution/derive.rs`), base/runtime resource preparation
(`graph/execution/prepare.rs`) and the `Backbuffer`/`BackbufferUsage` method
bodies are not under src/ — only their call sites in `graph/mod.rs` are.  They
enter the embedding as the components of a `GraphEnv`, so every theorem below
holds for an arbitrary behaviour of those collaborators. -/

/-- Modelled from the spec: "All declarations from one compile round combine
into one input set".  The `GraphInput` type and `add_builder` live in the
graph builder module absent from src/; the embedding is the list of
(pass id, builder) pairs in addition order. -/
abbrev GraphInput := List (Nat × GraphBuilder)

/-- Modelled from the spec: `GraphInput::add_builder` records one enabled
pass's declarations into the compile round's input set. -/
def GraphInput.add_builder (i : GraphInput) (id : Nat) (b : GraphBuilder) : GraphInput :=
  i ++ [(id, b)]

/-- The part of `GraphResourcesResolved` that `compile`/`execute` in
graph/mod.rs consume directly: the name→id table.  The per-pass resolved
read/write lists are consumed only by `execution/execute.rs` and are embedded
separately with the descriptor-write functions. -/
structure Resolved where
  name_lookup : List (ResourceName × Nat)
deriving DecidableEq, Repr

/-- Embedding of `GraphCompileError`; `unresolvedName` is modelled from the
spec's resolution-error taxonomy ("InvalidOutputResource, UnresolvedName"),
the resolver body being absent from src/. -/
inductive GraphCompileError where
  | invalidGraph
  | invalidOutputResource (res : ResourceName)
  | unresolvedName (res : ResourceName)
deriving DecidableEq, Repr

/-- Embedding of `ExecutionContext`. -/
structure ExecutionContext where
  reference_size : Nat × Nat
deriving DecidableEq, Repr

/-- Embedding of `BackbufferUsage`: the set of execution identities the
backbuffer has been set up for, plus the accumulated per-resource usage data
(of abstract type `U`; its tables live in a file absent from src/). -/
structure BackbufferUsage (U : Type) where
  exec_ids : List Nat
  usage : U
deriving DecidableEq, Repr

/-- Embedding of `Backbuffer`: usage cache, last-applied `ExecutionContext`
per execution identity, and the held physical resources (abstract type `I`). -/
structure Backbuffer (U I : Type) where
  usage : BackbufferUsage U
  exec_contexts : List (Nat × ExecutionContext)
  data : I
deriving DecidableEq, Repr

/-- Embedding of `GraphResources` (the per-(execution identity, context)
resources): the recorded execution identity and context that gate reuse, the
concrete payload (images, buffers, samplers, framebuffers — abstract type
`A`), and the resolved output ids. -/
structure GraphResourcesM (A : Type) where
  exec_version : Nat
  exec_context : ExecutionContext
  payload : A
  outputs : List Nat
deriving DecidableEq, Repr

/-- Embedding of `Graph` (the fields read or written by `compile` and the
resource-selection part of `execute`).  Pass setup behaviours are embedded as
pure functions from the fresh builder handed to `setup` to the builder state
after `setup` returns; `E` is the type of cached execution graphs.  The
`exec_usages`/`exec_base_resources` caches and the boxed pass-execute
behaviours do not influence the claims and are omitted. -/
structure GraphModel (E : Type) where
  passes_gfx : List (Nat × (GraphBuilder → GraphBuilder))
  passes_cmpt : List (Nat × (GraphBuilder → GraphBuilder))
  output_resources : List ResourceName
  resolve_cache : List (Nat × Resolved × Nat)
  exec_id_cache : List ((Nat × List ResourceName) × Nat)
  exec_graph_cache : List (Nat × E)
  last_exec : Option Nat
  last_input : Option Nat

/-- The collaborators of `compile`/`execute` whose bodies are not under src/:
content hashing of the input set (`DefaultHasher`), the resolver
(`resolve_input_graph`, returning the resolved table and the resolution errors
it pushes), execution-graph construction (`ExecutionGraph::new`), usage
accumulation (`BackbufferUsage::add_graph` — modelled from the spec as acting
on the usage tables only), resource clearing (`Backbuffer::clear`), and
runtime resource instantiation (`prepare`, keyed per the spec by the
(execution identity, context) pair). -/
structure GraphEnv (E U I A : Type) where
  hashInput : GraphInput → Nat
  resolveInput : GraphInput → Resolved × List GraphCompileError
  mkExecGraph : Resolved → List ResourceName → E
  addGraph : U → Resolved → U
  clearData : I → I
  prepare : Nat → ExecutionContext → A

/-- Embedding of the two setup loops at the start of `compile`: run each
pass's `setup` on a fresh (disabled) builder and add the builder to the input
set only when the pass enabled itself. -/
def buildPassInput (passes : List (Nat × (GraphBuilder → GraphBuilder)))
    (input : GraphInput) : GraphInput :=
  passes.foldl
    (fun inp p =>
      let builder := p.2 GraphBuilder.new
      if builder.enabled then inp.add_builder p.1 builder else inp)
    input

/-- The full resolver input of one compile round: graphics passes first, then
compute passes, as in the two loops of `compile`. -/
def GraphModel.compileInput {E : Type} (g : GraphModel E) : GraphInput :=
  buildPassInput g.passes_cmpt (buildPassInput g.passes_gfx [])

/-- Observable outcome of one `Graph`-level compile call: the returned result
plus the identities the call used (the internal `resolved_id`/`exec_id`
bindings of the source), the resolved table, and the post-call state. -/
structure CompileOutcome (E U : Type) where
  result : Except (List GraphCompileError) Unit
  resolved : Resolved
  resolvedId : Nat
  execId : Nat
  graph : GraphModel E
  backbufferUsage : BackbufferUsage U

/-- Embedding of the body of `GraphStorage::compile` after the handle lookup
succeeded: build the input set from enabled passes, hash it, memoize the
resolved graph under the hash (the id is the cache length at miss time),
memoize the execution id under (resolved id, output list), register with the
backbuffer usage cache only when the execution id is already present
(`if backbuffer_usage.exec_ids.contains(&exec_id)` — note: not negated),
record one `InvalidOutputResource` per output name missing from the resolved
table, memoize the execution graph, and return `Ok` exactly when no error was
collected. -/
def GraphModel.compile {E U I A : Type} (env : GraphEnv E U I A)
    (bu : BackbufferUsage U) (g : GraphModel E) : CompileOutcome E U :=
  let input := g.compileInput
  let inputHash := env.hashInput input
  let rid0 := g.resolve_cache.length
  let rstep :=
    match alookup g.resolve_cache inputHash with
    | some (r, i) => (r, i, g.resolve_cache, ([] : List GraphCompileError))
    | none =>
      let re := env.resolveInput input
      (re.1, rid0, g.resolve_cache ++ [(inputHash, re.1, rid0)], re.2)
  let resolved := rstep.1
  let rid := rstep.2.1
  let eid0 := g.exec_id_cache.length
  let estep :=
    match alookup g.exec_id_cache (rid, g.output_resources) with
    | some e => (e, g.exec_id_cache)
    | none => (eid0, g.exec_id_cache ++ [((rid, g.output_resources), eid0)])
  let execId := estep.1
  let bu' :=
    if execId ∈ bu.exec_ids then
      { exec_ids := sinsert bu.exec_ids execId, usage := env.addGraph bu.usage resolved }
    else bu
  let outputErrs := g.output_resources.filterMap
    (fun out =>
      if (alookup resolved.name_lookup out).isSome then none
      else some (GraphCompileError.invalidOutputResource out))
  let gcache :=
    match alookup g.exec_graph_cache execId with
    | some _ => g.exec_graph_cache
    | none => g.exec_graph_cache ++ [(execId, env.mkExecGraph resolved g.output_resources)]
  let errors := rstep.2.2.2 ++ outputErrs
  { result := if errors.isEmpty then Except.ok () else Except.error errors
    resolved := resolved
    resolvedId := rid
    execId := execId
    graph :=
      { g with
        resolve_cache := rstep.2.2.1
        exec_id_cache := estep.2
        exec_graph_cache := gcache
        last_input := some inputHash
        last_exec := some execId }
    backbufferUsage := bu' }

/-- Embedding of `GraphStorage::compile` including the graph-handle lookup:
a stale or unknown handle yields exactly `Err(vec![InvalidGraph])`, otherwise
the graph is compiled and written back. -/
def GraphStorage.compile {E U I A : Type} (env : GraphEnv E U I A)
    (bu : BackbufferUsage U) (gs : Storage (GraphModel E)) (h : Handle) :
    Except (List GraphCompileError) Unit × Storage (GraphModel E) × BackbufferUsage U :=
  match gs.get h with
  | none => (Except.error [GraphCompileError.invalidGraph], gs, bu)
  | some g =>
    let o := g.compile env bu
    (o.result, gs.update h o.graph, o.backbufferUsage)

/-- Observable outcome of the resource-selection portion of
`GraphStorage::execute`: the resources handed to the executor, the updated
backbuffer, the execution identity used, whether a backbuffer mismatch forced
a remake (`remake_resources`), whether the previously held resources were
reused, and whether they were released during this call. -/
structure ExecOutcome (U I A : Type) where
  resources : GraphResourcesM A
  backbuffer : Backbuffer U I
  execId : Nat
  remakeForced : Bool
  reused : Bool
  releasedPrev : Bool

/-- Embedding of the backbuffer registration block of `execute`
(`if !backbuffer.usage.exec_ids.contains(exec_id)`): a previously unseen
execution identity is inserted, the usage union is accumulated, and a remake
is forced. -/
def registerBackbuffer {E U I A : Type} (env : GraphEnv E U I A) (resolved : Resolved)
    (execId : Nat) (bb : Backbuffer U I) : Backbuffer U I × Bool :=
  if execId ∈ bb.usage.exec_ids then (bb, false)
  else
    ({ bb with
        usage :=
          { exec_ids := sinsert bb.usage.exec_ids execId
            usage := env.addGraph bb.usage.usage resolved } },
      true)

/-- Embedding of the context-comparison block of `execute`
(`if backbuffer.exec_contexts.get(exec_id) != Some(context)`): on mismatch the
current context is recorded, the backbuffer-held resources are cleared and a
remake is forced. -/
def applyContext {E U I A : Type} (env : GraphEnv E U I A) (execId : Nat)
    (context : ExecutionContext) (bb : Backbuffer U I) (remake : Bool) :
    Backbuffer U I × Bool :=
  if alookup bb.exec_contexts execId = some context then (bb, remake)
  else
    ({ bb with
        exec_contexts := ainsert bb.exec_contexts execId context
        data := env.clearData bb.data },
      true)

/-- Embedding of `GraphStorage::execute` up to (and including) the choice
between reusing `prev_res` and rebuilding, mirroring graph/mod.rs: the `?`
early-outs on the handle, `last_input`, and the two cache lookups; the
backbuffer registration (`!contains` — negated here, unlike `compile`); the
context comparison that inserts the new context, clears the backbuffer and
forces a remake; the output-id resolution; and the reuse test
`Some(res.exec_version) == graph.last_exec && res.exec_context == context &&
!remake_resources`, releasing and rebuilding on mismatch.  Fresh resources
take the current context and execution identity (prepare instantiates for the
(execution identity, context) pair).  The execution-graph cache indexing
panics in the source when the entry is missing; that (unreachable after a
compile) case is also embedded as `none`. -/
def GraphStorage.executeRes {E U I A : Type} (env : GraphEnv E U I A)
    (gs : Storage (GraphModel E)) (h : Handle) (backbuffer : Backbuffer U I)
    (prevRes : Option (GraphResourcesM A)) (context : ExecutionContext) :
    Option (ExecOutcome U I A) := do
  let g ← gs.get h
  let inputHash ← g.last_input
  let ri ← alookup g.resolve_cache inputHash
  let resolved := ri.1
  let execId ← alookup g.exec_id_cache (ri.2, g.output_resources)
  let reg := registerBackbuffer env resolved execId backbuffer
  let app := applyContext env execId context reg.1 reg.2
  let bb := app.1
  let remake := app.2
  let _ ← alookup g.exec_graph_cache execId
  let outputs ← g.output_resources.mapM (fun n => alookup resolved.name_lookup n)
  let fresh : GraphResourcesM A :=
    { exec_version := execId
      exec_context := context
      payload := env.prepare execId context
      outputs := outputs }
  match prevRes with
  | none =>
    some
      { resources := fresh, backbuffer := bb, execId := execId
        remakeForced := remake, reused := false, releasedPrev := false }
  | some res =>
    if some res.exec_version = g.last_exec ∧ res.exec_context = context ∧ remake = false then
      some
        { resources := res, backbuffer := bb, execId := execId
          remakeForced := remake, reused := true, releasedPrev := false }
    else
      some
        { resources := fresh, backbuffer := bb, execId := execId
          remakeForced := remake, reused := false, releasedPrev := true }

/-! ## `graph/execution/execute.rs` : descriptor-write emission

The read/write kind enums are pinned by their uses in execute.rs (their
defining module is absent from src/); variants the source matches with a
wildcard arm are represented by the constructors the spec names. -/

/-- Embedding of `ImageReadType`. -/
inductive ImageReadType where
  | color
  | storage
  | depthStencil
deriving DecidableEq, Repr

/-- Embedding of the payload of `ResourceReadType::Buffer`; execute.rs never
inspects it (`unimplemented!()`), the spec's read kinds name color, storage
and depth-stencil for images, so buffer reads carry the storage/uniform split
of the write side. -/
inductive BufferReadType where
  | storage
  | uniform
deriving DecidableEq, Repr

/-- Embedding of `ResourceReadType`. -/
inductive ResourceReadType where
  | image (t : ImageReadType)
  | buffer (t : BufferReadType)
  | external
deriving DecidableEq, Repr

/-- Embedding of `ImageWriteType`. -/
inductive ImageWriteType where
  | color
  | storage
  | depthStencil
deriving DecidableEq, Repr

/-- Embedding of `BufferWriteType`; execute.rs matches `Storage` and leaves
the remaining variants (`_ => unimplemented!()`) unreached. -/
inductive BufferWriteType where
  | storage
  | uniform
deriving DecidableEq, Repr

/-- Embedding of `ResourceWriteType`. -/
inductive ResourceWriteType where
  | buffer (t : BufferWriteType)
  | image (t : ImageWriteType)
deriving DecidableEq, Repr

/-- One `gfx::pso::DescriptorSetWrite` against the pass's bound descriptor
set, reduced to what the claims observe: the descriptor kind and the binding
slot it targets. -/
inductive DescriptorWrite where
  | imageView (binding : Nat)
  | samplerAt (binding : Nat)
  | bufferAt (binding : Nat)
deriving DecidableEq, Repr

/-- Embedding of the per-read descriptor-write match in execute.rs: a color
image read emits an image-view write at its binding plus a sampler write at
its sampler slot (`samp.clone().unwrap()` — panic, embedded `none`, when the
slot is absent); a storage image read emits a single image-view write; a
depth-stencil read emits nothing ("not a real read type"); buffer reads hit
`unimplemented!()`; external reads emit nothing. -/
def readDescriptorWrites (ty : ResourceReadType) (binding : Nat) (samp : Option Nat) :
    Option (List DescriptorWrite) :=
  match ty with
  | ResourceReadType.image ImageReadType.color =>
    match samp with
    | some s => some [DescriptorWrite.imageView binding, DescriptorWrite.samplerAt s]
    | none => none
  | ResourceReadType.image ImageReadType.storage =>
    some [DescriptorWrite.imageView binding]
  | ResourceReadType.image ImageReadType.depthStencil => some []
  | ResourceReadType.buffer _ => none
  | ResourceReadType.external => some []

/-- Embedding of the per-write `filter_map` in execute.rs: a buffer storage
write emits one buffer descriptor write at its binding; color and
depth-stencil image writes emit nothing (they go through render-pass
attachments); the remaining kinds hit `unimplemented!()` (outer `none`). -/
def writeDescriptorWrite (ty : ResourceWriteType) (binding : Nat) :
    Option (Option DescriptorWrite) :=
  match ty with
  | ResourceWriteType.buffer BufferWriteType.storage =>
    some (some (DescriptorWrite.bufferAt binding))
  | ResourceWriteType.buffer _ => none
  | ResourceWriteType.image ImageWriteType.color => some none
  | ResourceWriteType.image ImageWriteType.depthStencil => some none
  | ResourceWriteType.image ImageWriteType.storage => none

/-- The descriptor writes submitted for one pass's resolved read list
(`pass_reads` entries are (resource id, type, binding, sampler slot); the
iterator maps each entry and flattens). -/
def passReadDescriptorWrites
    (reads : List (Nat × ResourceReadType × Nat × Option Nat)) :
    Option (List DescriptorWrite) :=
  match reads with
  | [] => some []
  | (_, ty, binding, samp) :: rest => do
    let ws ← readDescriptorWrites ty binding samp
    let tail ← passReadDescriptorWrites rest
    some (ws ++ tail)

/-- The descriptor writes submitted for one pass's resolved write list
(`pass_writes` entries are (resource id, type, binding); the iterator
filter-maps each entry). -/
def passWriteDescriptorWrites
    (writes : List (Nat × ResourceWriteType × Nat)) :
    Option (List DescriptorWrite) :=
  match writes with
  | [] => some []
  | (_, ty, binding) :: rest => do
    let w ← writeDescriptorWrite ty binding
    let tail ← passWriteDescriptorWrites rest
    some (w.toList ++ tail)

/-- The resolved table and resolution errors a compile call works with: the
cached entry on a hash hit (no resolver run, so no resolution errors pushed),
or the resolver output on a miss. -/
def resolveStepOf {E U I A : Type} (env : GraphEnv E U I A) (g : GraphModel E) :
    Resolved × List GraphCompileError :=
  match alookup g.resolve_cache (env.hashInput g.compileInput) with
  | some (r, _) => (r, [])
  | none => env.resolveInput g.compileInput

/-- The `InvalidOutputResource` errors of one compile call: one per requested
output name absent from the resolved name table, in output-list order. -/
def outputErrorsOf (resolved : Resolved) (outputs : List ResourceName) :
    List GraphCompileError :=
  outputs.filterMap
    (fun out =>
      if (alookup resolved.name_lookup out).isSome then none
      else some (GraphCompileError.invalidOutputResource out))

/-- The complete error list one compile call collects: the resolution errors
followed by the missing-output errors. -/
def compileErrorsOf {E U I A : Type} (env : GraphEnv E U I A) (g : GraphModel E) :
    List GraphCompileError :=
  (resolveStepOf env g).2 ++ outputErrorsOf (resolveStepOf env g).1 g.output_resources

/-- The contribution of one registered pass to the resolver input: its builder
state after `setup`, kept only when the pass enabled itself. -/
def passFilter (p : Nat × (GraphBuilder → GraphBuilder)) : Option (Nat × GraphBuilder) :=
  let b := p.2 GraphBuilder.new
  if b.enabled then some (p.1, b) else none

/-- Two registered passes agree for compilation when they share the pass id
and either produce the same builder, or both leave their builder disabled
(their declarations may then differ arbitrarily). -/
def setupAgrees (p q : Nat × (GraphBuilder → GraphBuilder)) : Prop :=
  p.1 = q.1 ∧
    (p.2 GraphBuilder.new = q.2 GraphBuilder.new ∨
      ((p.2 GraphBuilder.new).enabled = false ∧ (q.2 GraphBuilder.new).enabled = false))

/-- A concrete collaborator environment over unit payloads whose resolver
returns a fixed table and error list; used to evaluate the embedding on
concrete graphs. -/
def unitEnv (res : Resolved) (errs : List GraphCompileError) :
    GraphEnv Unit Unit Unit Unit :=
  ⟨fun _ => 0, fun _ => (res, errs), fun _ _ => (), fun _ _ => (), fun d => d, fun _ _ => ()⟩

/-! ## Helper lemmas -/

theorem alookup_append_self {κ : Type u} {α : Type v} [DecidableEq κ]
    (m : List (κ × α)) (k : κ) (v : α) (h : alookup m k = none) :
    alookup (m ++ [(k, v)]) k = some v := by
  induction m with
  | nil => simp [alookup]
  | cons p rest ih =>
    obtain ⟨k', v'⟩ := p
    simp only [List.cons_append, alookup] at h ⊢
    by_cases hk : k' = k
    · simp [hk] at h
    · simp only [if_neg hk] at h ⊢
      exact ih h

theorem mem_sinsert_self {κ : Type u} [DecidableEq κ] (s : List κ) (x : κ) :
    x ∈ sinsert s x := by
  unfold sinsert
  by_cases h : x ∈ s <;> simp [h]

theorem sinsert_of_mem {κ : Type u} [DecidableEq κ] {s : List κ} {x : κ} (h : x ∈ s) :
    sinsert s x = s := by
  simp [sinsert, h]

theorem getD_of_getElem?_eq_some {l : List Nat} {i g : Nat} (h : l[i]? = some g) :
    l.getD i 0 = g := by
  simp [List.getD_eq_getElem?_getD, h]

/-- A live handle has its index inside the generations vector and matches the
stored generation. -/
theorem is_alive_iff {T : Type u} (s : Storage T) (h : Handle) :
    s.is_alive h = true ↔ h.id < s.generations.length ∧ s.generations.getD h.id 0 = h.generation := by
  unfold Storage.is_alive
  by_cases hlt : s.generations.length > h.id
  · simp only [if_pos hlt, decide_eq_true_eq]
    constructor
    · intro h2
      exact ⟨by omega, h2⟩
    · intro h2
      exact h2.2
  · simp only [if_neg hlt, Bool.false_eq_true, false_iff, not_and]
    exact fun h2 => absurd h2 (by omega)

/-- A handle whose generation differs from the slot's stored generation is not
alive. -/
theorem is_alive_false_of_ne {T : Type u} (s : Storage T) (i g : Nat)
    (hg : s.generations.getD i 0 ≠ g) : s.is_alive ⟨i, g⟩ = false := by
  unfold Storage.is_alive
  by_cases hlt : s.generations.length > i
  · simp only [if_pos hlt]
    exact decide_eq_false hg
  · simp [hlt]

/-- Getting through a handle whose generation differs from the slot's stored
generation fails. -/
theorem storage_get_stale {T : Type u} (s : Storage T) (i g : Nat)
    (hg : s.generations.getD i 0 ≠ g) : s.get ⟨i, g⟩ = none := by
  unfold Storage.get
  rw [is_alive_false_of_ne s i g hg]
  simp

/-- Characterization of a successful `Storage.insert`: the handle indexes the
slab's vacant key, the stored generation matches the handle, and the slot is
occupied by the inserted value in the post-state. -/
theorem storage_insert_spec {T : Type u} {s : Storage T} {v : T} {h : Handle}
    {op : InsertOp} {s' : Storage T} (hins : s.insert v = some (h, op, s')) :
    h.id = s.entries.next ∧
    s'.generations[h.id]? = some h.generation ∧
    s'.entries.get? h.id = some v ∧
    h.id < s'.generations.length ∧
    s'.get h = some v := by
  unfold Storage.insert Slab.vacantKey at hins
  simp only [] at hins
  split at hins
  next generation entries hg hi =>
    obtain ⟨rfl, rfl, rfl⟩ : (⟨s.entries.next, generation⟩ : Handle) = h ∧
        (if s.generations.length ≤ s.entries.next then InsertOp.grow else InsertOp.inplace) = op ∧
        (⟨if s.generations.length ≤ s.entries.next then s.generations ++ [0]
          else s.generations.set s.entries.next (s.generations.getD s.entries.next 0 + 1),
          entries⟩ : Storage T) = s' := by
      injection hins with h1
      injection h1 with h2 h3
      injection h3 with h4 h5
      exact ⟨h2, h4, h5⟩
    have hidlt : s.entries.next <
        (if s.generations.length ≤ s.entries.next then s.generations ++ [0]
         else s.generations.set s.entries.next (s.generations.getD s.entries.next 0 + 1)).length := by
      by_contra hc
      rw [List.getElem?_eq_none (by omega)] at hg
      exact Option.noConfusion hg
    have hslab : entries.get? s.entries.next = some v := by
      unfold Slab.insertAt at hi
      split at hi
      next heq =>
        injection hi with hi
        subst hi
        unfold Slab.get?
        simp [heq, List.getElem?_concat_length]
      next hne =>
        split at hi
        next n hvac =>
          injection hi with hi
          subst hi
          have hlt : s.entries.next < s.entries.entries.length := by
            by_contra hc
            rw [List.getElem?_eq_none (by omega)] at hvac
            exact Option.noConfusion hvac
          unfold Slab.get?
          simp [List.getElem?_set_self hlt]
        next => exact Option.noConfusion hi
    refine ⟨rfl, hg, hslab, hidlt, ?_⟩
    unfold Storage.get
    have halive : Storage.is_alive
        ⟨(if s.generations.length ≤ s.entries.next then s.generations ++ [0]
          else s.generations.set s.entries.next (s.generations.getD s.entries.next 0 + 1)),
         entries⟩ (⟨s.entries.next, generation⟩ : Handle) = true := by
      rw [is_alive_iff]
      exact ⟨hidlt, getD_of_getElem?_eq_some hg⟩
    rw [halive]
    exact hslab
  next => exact Option.noConfusion hins

/-- Characterization of a successful `Storage.remove`: the generations vector
is untouched, the slab slot becomes vacant and heads the free list, and `get`
through the removed handle now fails. -/
theorem storage_remove_spec {T : Type u} {s : Storage T} {h : Handle} {v : T}
    {s' : Storage T} (hrem : s.remove h = RemoveResult.removed v s') :
    s'.generations = s.generations ∧
    s'.entries.next = h.id ∧
    h.id < s.entries.entries.length ∧
    s'.entries.entries = s.entries.entries.set h.id (SlabEntry.vacant s.entries.next) ∧
    s.is_alive h = true ∧
    s'.is_alive h = true ∧
    s'.get h = none := by
  unfold Storage.remove at hrem
  split at hrem
  next halive =>
    split at hrem
    next v' entries hkey =>
      injection hrem with hv hs
      subst hv
      subst hs
      unfold Slab.removeKey at hkey
      split at hkey
      next w hocc =>
        injection hkey with h1
        injection h1 with h2 h3
        subst h2
        subst h3
        have hlt : h.id < s.entries.entries.length := by
          by_contra hc
          rw [List.getElem?_eq_none (by omega)] at hocc
          exact Option.noConfusion hocc
        refine ⟨rfl, rfl, hlt, rfl, halive, halive, ?_⟩
        unfold Storage.get
        have halive2 : Storage.is_alive
            (⟨s.generations,
              ⟨s.entries.entries.set h.id (SlabEntry.vacant s.entries.next),
               s.entries.len - 1, h.id⟩⟩ : Storage T) h = true := halive
        rw [halive2]
        unfold Slab.get?
        simp [List.getElem?_set_self hlt]
      next => exact Option.noConfusion hkey
    next hne => simp at hrem
  next => simp at hrem

/-- After removing a live handle, the freed slot is the very next one handed
out: re-insertion succeeds in place with the generation bumped by one. -/
theorem storage_reinsert_after_remove {T : Type u} {s : Storage T} {h : Handle} {v : T}
    {s' : Storage T} (w : T) (hrem : s.remove h = RemoveResult.removed v s') :
    s'.insert w =
      some (⟨h.id, h.generation + 1⟩, InsertOp.inplace,
        ⟨s.generations.set h.id (h.generation + 1),
         ⟨(s.entries.entries.set h.id (SlabEntry.vacant s.entries.next)).set h.id
            (SlabEntry.occupied w),
          s'.entries.len + 1, s.entries.next⟩⟩) := by
  obtain ⟨hgens, hnext, hlt, hentries, halive, _, _⟩ := storage_remove_spec hrem
  obtain ⟨hidlt, hgen⟩ := (is_alive_iff s h).mp halive
  unfold Storage.insert Slab.vacantKey
  have hkey : s'.entries.next = h.id := hnext
  rw [hkey, hgens]
  have hnle : ¬ s.generations.length ≤ h.id := by omega
  simp only [if_neg hnle]
  rw [hgen]
  have hset : (s.generations.set h.id (h.generation + 1))[h.id]? = some (h.generation + 1) :=
    List.getElem?_set_self hidlt
  rw [hset]
  unfold Slab.insertAt
  rw [hentries]
  have hlen : (s.entries.entries.set h.id (SlabEntry.vacant s.entries.next)).length =
      s.entries.entries.length := List.length_set _ _ _
  have hne : ¬ h.id = (s.entries.entries.set h.id (SlabEntry.vacant s.entries.next)).length := by
    omega
  simp only [if_neg hne]
  have hvac : (s.entries.entries.set h.id (SlabEntry.vacant s.entries.next))[h.id]? =
      some (SlabEntry.vacant s.entries.next) :=
    List.getElem?_set_self (by omega)
  rw [hvac]

/-! ## Claim C1 -/

/-- C1: for every value inserted into a `Storage`, the returned handle `h`
satisfies: `get h` succeeds with the stored value immediately after the
insertion; after a successful `remove h`, `get h` fails; and once the freed
slot is reused by a later insert (the freed slot heads the free list, so the
next insert reuses exactly that slot with a bumped generation), `get` on any
handle with that slot's index and an older generation fails. -/
theorem handle_lifecycle_generation_check {T : Type u} (s : Storage T) (v w : T)
    (h : Handle) (op : InsertOp) (s1 : Storage T)
    (hins : s.insert v = some (h, op, s1)) :
    s1.get h = some v ∧
    (∀ v1 s2, s1.remove h = RemoveResult.removed v1 s2 →
      s2.get h = none ∧
      ∀ h2 op2 s3, s2.insert w = some (h2, op2, s3) →
        h2.id = h.id ∧ h.generation < h2.generation ∧
        ∀ g, g < h2.generation → s3.get ⟨h.id, g⟩ = none) := by
  refine ⟨(storage_insert_spec hins).2.2.2.2, ?_⟩
  intro v1 s2 hrem
  obtain ⟨hgens, hnext, hlt, hentries, halive, _, hgetnone⟩ := storage_remove_spec hrem
  refine ⟨hgetnone, ?_⟩
  intro h2 op2 s3 hins2
  have hre := storage_reinsert_after_remove w hrem
  rw [hre] at hins2
  injection hins2 with hins2
  injection hins2 with hh hins2
  injection hins2 with hop hs3
  obtain ⟨hidlt, hgen⟩ := (is_alive_iff s1 h).mp halive
  constructor
  · rw [← hh]
  constructor
  · rw [← hh]
    exact Nat.lt_succ_self _
  · intro g hg
    rw [← hs3]
    apply storage_get_stale
    have hset : (s1.generations.set h.id (h.generation + 1)).getD h.id 0 = h.generation + 1 :=
      getD_of_getElem?_eq_some (List.getElem?_set_self hidlt)
    rw [hset]
    rw [← hh] at hg
    have hg2 : g < h.generation + 1 := hg
    omega

/-- Witness for C1: inserting 7 into a fresh storage yields handle (0, 0) and
a readable slot; removing it makes `get` fail; re-inserting 9 reuses slot 0
with generation 1, and `get` with the stale generation 0 fails. -/
theorem handle_lifecycle_generation_check_witness :
    (⟨[0], ⟨[SlabEntry.occupied 7], 1, 1⟩⟩ : Storage Nat).get ⟨0, 0⟩ = some 7 ∧
    (⟨[0], ⟨[SlabEntry.vacant 1], 0, 0⟩⟩ : Storage Nat).get ⟨0, 0⟩ = none ∧
    (⟨[1], ⟨[SlabEntry.occupied 9], 1, 1⟩⟩ : Storage Nat).get ⟨0, 0⟩ = none := by
  have W := handle_lifecycle_generation_check (Storage.new (T := Nat)) 7 9 ⟨0, 0⟩
    InsertOp.grow ⟨[0], ⟨[SlabEntry.occupied 7], 1, 1⟩⟩ (by decide)
  have W2 := W.2 7 ⟨[0], ⟨[SlabEntry.vacant 1], 0, 0⟩⟩ (by decide)
  have W3 := W2.2 ⟨0, 1⟩ InsertOp.inplace ⟨[1], ⟨[SlabEntry.occupied 9], 1, 1⟩⟩ (by decide)
  exact ⟨W.1, W2.1, W3.2.2 0 (by decide)⟩

/-! ## Claim C2 -/

/-- C2 (evaluation of the code at the failing input): after inserting a value
into a fresh storage and removing it once, the handle still passes `is_alive`
(generations are only bumped on re-insertion, not on removal), so a second
`remove` with the same handle reaches `slab::Slab::remove` on a vacant slot
and aborts instead of signalling "not found". -/
theorem remove_twice_aborts :
    (Storage.new (T := Nat)).insert 5 =
      some (⟨0, 0⟩, InsertOp.grow, ⟨[0], ⟨[SlabEntry.occupied 5], 1, 1⟩⟩) ∧
    (⟨[0], ⟨[SlabEntry.occupied 5], 1, 1⟩⟩ : Storage Nat).remove ⟨0, 0⟩ =
      RemoveResult.removed 5 ⟨[0], ⟨[SlabEntry.vacant 1], 0, 0⟩⟩ ∧
    (⟨[0], ⟨[SlabEntry.vacant 1], 0, 0⟩⟩ : Storage Nat).is_alive ⟨0, 0⟩ = true ∧
    (⟨[0], ⟨[SlabEntry.vacant 1], 0, 0⟩⟩ : Storage Nat).remove ⟨0, 0⟩ =
      RemoveResult.aborted := by
  decide

/-! ## Claims C3 and C9 : buffer store

Both claims quantify over all `u64` inputs; because the source's bounds check
and padding addition wrap at `2 ^ 64`, each claim fails as stated at inputs
near `u64::MAX` (the counterexamples below) and holds in the non-wrapping
region (the amended theorems below). -/

theorem alookup_ainsert_self {κ : Type u} {α : Type v} [DecidableEq κ]
    (m : List (κ × α)) (k : κ) (v : α) : alookup (ainsert m k v) k = some v := by
  induction m with
  | nil => simp [ainsert, alookup]
  | cons p rest ih =>
    obtain ⟨k2, v2⟩ := p
    unfold ainsert
    by_cases hk : k2 = k
    · rw [if_pos hk]
      simp [alookup]
    · rw [if_neg hk]
      simp only [alookup, if_neg hk]
      exact ih

/-- Arithmetic of the padding block in the non-wrapping region: when the
rounded-up size fits in `u64`, the padded size is the requested size rounded
up to the next multiple of the atom size. -/
theorem paddedSize_spec (atom size : Nat) (hatom : 0 < atom)
    (hfit : size + atom ≤ 2 ^ 64) :
    paddedSize atom size % atom = 0 ∧
    size ≤ paddedSize atom size ∧
    paddedSize atom size < size + atom ∧
    (size % atom = 0 → paddedSize atom size = size) := by
  unfold paddedSize
  by_cases hr : size % atom = 0
  · simp [hr]
    omega
  · simp only [if_pos (by exact hr)]
    have hmod : size % atom < atom := Nat.mod_lt size hatom
    have hnw : wrapAdd64 size (atom - size % atom) = size + (atom - size % atom) := by
      unfold wrapAdd64
      exact Nat.mod_eq_of_lt (by omega)
    rw [hnw]
    have hdiv : atom * (size / atom) + size % atom = size := Nat.div_add_mod size atom
    refine ⟨?_, by omega, by omega, fun hc => absurd hc hr⟩
    have heq : size + (atom - size % atom) = atom * (size / atom + 1) := by
      rw [Nat.mul_add, Nat.mul_one]
      omega
    rw [heq]
    exact Nat.mul_mod_right atom _

/-- Successful-path equation for `cpu_visible_upload`: classified, live, in
bounds without `u64` wrap, and inside the mapped range means the bytes are
written. -/
theorem cpu_visible_upload_ok (bs : BufferStorage) (mem : DeviceMem) (h : Handle)
    (offset : Nat) (data : List Nat) (buf : Buffer)
    (hin : h.id ∈ bs.cpu_visible) (hget : bs.buffers.get h = some buf)
    (hfit : offset + data.length ≤ buf.size) (hsize : buf.size < 2 ^ 64)
    (hmem : offset + data.length ≤ ((alookup mem h.id).getD []).length) :
    bs.cpu_visible_upload mem h offset data =
      UploadResult.ok (ainsert mem h.id
        (spliceBytes ((alookup mem h.id).getD []) offset data)) := by
  unfold BufferStorage.cpu_visible_upload
  simp only [if_pos hin, hget]
  have hw : wrapAdd64 offset data.length = offset + data.length := by
    unfold wrapAdd64
    exact Nat.mod_eq_of_lt (by omega)
  rw [hw, if_pos hfit]
  unfold write_data_to_buffer
  rw [if_pos hmem]

set_option maxRecDepth 4000 in
/-- C3 (counterexample): at offset `2 ^ 64 - 1` with one byte of data — where
offset plus byte length exceeds the 128-byte buffer, so the claim demands
`UploadOutOfBounds` before any GPU call — the `u64` bounds check wraps to
`0 ≤ 128`, and the code instead acquires the device mapping and aborts in the
slice write. -/
theorem cpu_visible_upload_wraps_at_u64_max :
    BufferStorage.cpu_visible_upload
      ⟨[0], [], ⟨[0], ⟨[SlabEntry.occupied ⟨128⟩], 1, 1⟩⟩, 64⟩
      [(0, List.replicate 128 0)] ⟨0, 0⟩ (2 ^ 64 - 1) [1] =
      UploadResult.abortedInWrite ∧
    128 < (2 ^ 64 - 1) + 1 := by
  decide

/-- C3 (amended): a host-visible upload fails with `HandleInvalid` when the
slot is not classified host-visible or the handle is stale — regardless of
offset — and, whenever the `u64` sum of offset and byte length does not wrap
(it is below `2 ^ 64`), fails with `UploadOutOfBounds` when that sum exceeds
the stored size; on every returned error the device memory is untouched, both
validations happening before any write or device call.  When the sum wraps
the check can pass and the code aborts inside the acquired mapping instead
(see the counterexample). -/
theorem cpu_visible_upload_validates_before_write (bs : BufferStorage) (mem : DeviceMem)
    (h : Handle) (offset : Nat) (data : List Nat) :
    (¬ h.id ∈ bs.cpu_visible →
      bs.cpu_visible_upload mem h offset data =
        UploadResult.error BufferError.handleInvalid mem) ∧
    (h.id ∈ bs.cpu_visible → bs.buffers.get h = none →
      bs.cpu_visible_upload mem h offset data =
        UploadResult.error BufferError.handleInvalid mem) ∧
    (∀ buf, h.id ∈ bs.cpu_visible → bs.buffers.get h = some buf →
      offset + data.length < 2 ^ 64 →
      buf.size < offset + data.length →
      bs.cpu_visible_upload mem h offset data =
        UploadResult.error BufferError.uploadOutOfBounds mem) ∧
    (∀ e m2, bs.cpu_visible_upload mem h offset data = UploadResult.error e m2 →
      m2 = mem) := by
  refine ⟨?_, ?_, ?_, ?_⟩
  · intro hnotin
    unfold BufferStorage.cpu_visible_upload
    rw [if_neg hnotin]
  · intro hin hnone
    unfold BufferStorage.cpu_visible_upload
    simp only [if_pos hin, hnone]
  · intro buf hin hsome h64 hlt
    unfold BufferStorage.cpu_visible_upload
    simp only [if_pos hin, hsome]
    have hw : wrapAdd64 offset data.length = offset + data.length := by
      unfold wrapAdd64
      exact Nat.mod_eq_of_lt h64
    rw [hw, if_neg (by omega)]
  · intro e m2 hres
    unfold BufferStorage.cpu_visible_upload at hres
    by_cases hin : h.id ∈ bs.cpu_visible
    · rw [if_pos hin] at hres
      cases hget : bs.buffers.get h with
      | none =>
        simp only [hget] at hres
        injection hres with h1 h2
        exact h2.symm
      | some buf =>
        simp only [hget] at hres
        by_cases hfit : wrapAdd64 offset data.length ≤ buf.size
        · rw [if_pos hfit] at hres
          cases hwr : write_data_to_buffer ((alookup mem h.id).getD []) offset data with
          | some bytes =>
            simp only [hwr] at hres
            exact UploadResult.noConfusion hres
          | none =>
            simp only [hwr] at hres
            exact UploadResult.noConfusion hres
        · rw [if_neg hfit] at hres
          injection hres with h1 h2
          exact h2.symm
    · rw [if_neg hin] at hres
      injection hres with h1 h2
      exact h2.symm

/-- Witness for C3 (amended): on a store whose slot 0 holds a 128-byte
cpu-visible buffer, an upload at offset 64 of 100 bytes (no wrap) reports out
of bounds, an upload through the stale handle (0, 1) reports an invalid
handle, and on a store where slot 0 is classified device-local the same
upload reports an invalid handle; the device memory is unchanged each time. -/
theorem cpu_visible_upload_validates_before_write_witness :
    (BufferStorage.cpu_visible_upload
      ⟨[0], [], ⟨[0], ⟨[SlabEntry.occupied ⟨128⟩], 1, 1⟩⟩, 64⟩
      [(0, List.replicate 128 0)] ⟨0, 0⟩ 64 (List.replicate 100 1) =
      UploadResult.error BufferError.uploadOutOfBounds [(0, List.replicate 128 0)]) ∧
    (BufferStorage.cpu_visible_upload
      ⟨[0], [], ⟨[0], ⟨[SlabEntry.occupied ⟨128⟩], 1, 1⟩⟩, 64⟩
      [(0, List.replicate 128 0)] ⟨0, 1⟩ 0 (List.replicate 4 1) =
      UploadResult.error BufferError.handleInvalid [(0, List.replicate 128 0)]) ∧
    (BufferStorage.cpu_visible_upload
      ⟨[], [0], ⟨[0], ⟨[SlabEntry.occupied ⟨128⟩], 1, 1⟩⟩, 64⟩
      [(0, List.replicate 128 0)] ⟨0, 0⟩ 0 (List.replicate 4 1) =
      UploadResult.error BufferError.handleInvalid [(0, List.replicate 128 0)]) := by
  refine ⟨?_, ?_, ?_⟩
  · exact (cpu_visible_upload_validates_before_write
      ⟨[0], [], ⟨[0], ⟨[SlabEntry.occupied ⟨128⟩], 1, 1⟩⟩, 64⟩ [(0, List.replicate 128 0)]
      ⟨0, 0⟩ 64 (List.replicate 100 1)).2.2.1 ⟨128⟩ (by decide) (by decide) (by decide)
      (by simp)
  · exact (cpu_visible_upload_validates_before_write
      ⟨[0], [], ⟨[0], ⟨[SlabEntry.occupied ⟨128⟩], 1, 1⟩⟩, 64⟩ [(0, List.replicate 128 0)]
      ⟨0, 1⟩ 0 (List.replicate 4 1)).2.1 (by decide) (by decide)
  · exact (cpu_visible_upload_validates_before_write
      ⟨[], [0], ⟨[0], ⟨[SlabEntry.occupied ⟨128⟩], 1, 1⟩⟩, 64⟩ [(0, List.replicate 128 0)]
      ⟨0, 0⟩ 0 (List.replicate 4 1)).1 (by decide)

/-- C9 (counterexample): with atom size 64 and requested size `2 ^ 64 - 1`,
the `u64` padding add wraps and the stored buffer size is 0 — smaller than
the request, not the requested size rounded up. -/
theorem buffer_create_padding_wraps_at_u64_max :
    BufferStorage.cpu_visible_create (BufferStorage.new 64) [] (2 ^ 64 - 1) =
      some (⟨0, 0⟩, ⟨[0], [], ⟨[0], ⟨[SlabEntry.occupied ⟨0⟩], 1, 1⟩⟩, 64⟩, [(0, [])]) ∧
    (0 : Nat) < 2 ^ 64 - 1 := by
  decide

/-- C9 (amended): for every create request whose rounded-up size fits in
`u64` (requested size plus atom size at most `2 ^ 64`), both create paths
store the requested size rounded up to the next multiple of the non-coherent
atom size (unchanged when already a multiple), and `cpu_visible_upload`
checks bounds against this padded size — so an upload whose end lies past the
requested size but within the padding succeeds.  Within one atom of `2 ^ 64`
the padding add wraps instead (see the counterexample). -/
theorem buffer_create_pads_size_upload_checks_padded (bs : BufferStorage)
    (mem : DeviceMem) (size : Nat) (hatom : 0 < bs.atom_size)
    (hfit : size + bs.atom_size ≤ 2 ^ 64) :
    (∀ h bs2 mem2, bs.cpu_visible_create mem size = some (h, bs2, mem2) →
      ∃ buf, bs2.buffers.get h = some buf ∧
        buf.size % bs.atom_size = 0 ∧
        size ≤ buf.size ∧
        buf.size < size + bs.atom_size ∧
        (size % bs.atom_size = 0 → buf.size = size) ∧
        (∀ offset data, offset + List.length data ≤ buf.size →
          ∃ m2, bs2.cpu_visible_upload mem2 h offset data = UploadResult.ok m2)) ∧
    (∀ h bs2, bs.device_local_create size = some (h, bs2) →
      ∃ buf, bs2.buffers.get h = some buf ∧
        buf.size = paddedSize bs.atom_size size) := by
  obtain ⟨hmod, hge, hlt, hsame⟩ := paddedSize_spec bs.atom_size size hatom hfit
  constructor
  · intro h bs2 mem2 hc
    unfold BufferStorage.cpu_visible_create at hc
    simp only [] at hc
    split at hc
    next handle op buffers hins =>
      injection hc with hc
      injection hc with hh hc
      injection hc with hbs hmem
      subst hh
      subst hbs
      subst hmem
      have hget : buffers.get handle = some ⟨paddedSize bs.atom_size size⟩ :=
        (storage_insert_spec hins).2.2.2.2
      refine ⟨⟨paddedSize bs.atom_size size⟩, hget, hmod, hge, hlt, hsame, ?_⟩
      intro offset data hfitlen
      have hentry :
          (alookup (ainsert mem handle.id
              (List.replicate (paddedSize bs.atom_size size) 0)) handle.id).getD [] =
            List.replicate (paddedSize bs.atom_size size) 0 := by
        rw [alookup_ainsert_self]
        rfl
      refine ⟨_, cpu_visible_upload_ok _ _ _ _ _ ⟨paddedSize bs.atom_size size⟩
        (mem_sinsert_self bs.cpu_visible handle.id) hget hfitlen
        (lt_of_lt_of_le hlt hfit) ?_⟩
      rw [hentry, List.length_replicate]
      exact hfitlen
    next => exact Option.noConfusion hc
  · intro h bs2 hc
    unfold BufferStorage.device_local_create at hc
    simp only [] at hc
    split at hc
    next handle op buffers hins =>
      injection hc with hc
      injection hc with hh hbs
      subst hh
      subst hbs
      exact ⟨⟨paddedSize bs.atom_size size⟩, (storage_insert_spec hins).2.2.2.2, rfl⟩
    next => exact Option.noConfusion hc

/-- Witness for C9 (amended): with atom size 64, a create request of 100
bytes stores a 128-byte buffer, and an upload of 110 bytes at offset 0 (past
the requested 100 bytes, inside the padding) succeeds. -/
theorem buffer_create_pads_size_upload_checks_padded_witness :
    (∃ m2, BufferStorage.cpu_visible_upload
      ⟨[0], [], ⟨[0], ⟨[SlabEntry.occupied ⟨128⟩], 1, 1⟩⟩, 64⟩
      [(0, List.replicate 128 0)] ⟨0, 0⟩ 0 (List.replicate 110 1) =
      UploadResult.ok m2) ∧
    100 < 110 := by
  have W := (buffer_create_pads_size_upload_checks_padded (BufferStorage.new 64) [] 100
    (by decide) (by decide)).1 ⟨0, 0⟩ ⟨[0], [], ⟨[0], ⟨[SlabEntry.occupied ⟨128⟩], 1, 1⟩⟩, 64⟩
    [(0, List.replicate 128 0)] (by decide)
  obtain ⟨buf, hget, _, _, _, _, hupl⟩ := W
  have hbuf : buf = ⟨128⟩ := by
    have hconc : (⟨[0], [], ⟨[0], ⟨[SlabEntry.occupied ⟨128⟩], 1, 1⟩⟩, 64⟩ :
        BufferStorage).buffers.get ⟨0, 0⟩ = some ⟨128⟩ := by decide
    rw [hconc] at hget
    injection hget with hb
    exact hb.symm
  refine ⟨hupl 0 (List.replicate 110 1) ?_, by decide⟩
  rw [hbuf]
  simp

/-! ## Claims C7 and C4 : resolver input and cache idempotence -/

theorem buildPassInput_cons (p : Nat × (GraphBuilder → GraphBuilder))
    (rest : List (Nat × (GraphBuilder → GraphBuilder))) (input : GraphInput) :
    buildPassInput (p :: rest) input =
      buildPassInput rest
        (if (p.2 GraphBuilder.new).enabled then input.add_builder p.1 (p.2 GraphBuilder.new)
         else input) := rfl

/-- The resolver input is the input so far followed by the enabled passes'
builders in order. -/
theorem buildPassInput_eq (passes : List (Nat × (GraphBuilder → GraphBuilder)))
    (input : GraphInput) :
    buildPassInput passes input = input ++ passes.filterMap passFilter := by
  induction passes generalizing input with
  | nil => simp [buildPassInput]
  | cons p rest ih =>
    rw [buildPassInput_cons, List.filterMap_cons]
    unfold passFilter
    by_cases hb : (p.2 GraphBuilder.new).enabled
    · simp only [if_pos hb]
      rw [ih]
      unfold GraphInput.add_builder
      rw [List.append_assoc]
      rfl
    · simp only [if_neg hb]
      exact ih input

/-- The resolver input of a compile round consists exactly of the builders of
the enabled passes, graphics passes first. -/
theorem compileInput_eq {E : Type} (g : GraphModel E) :
    g.compileInput = (g.passes_gfx ++ g.passes_cmpt).filterMap passFilter := by
  unfold GraphModel.compileInput
  rw [buildPassInput_eq, buildPassInput_eq, List.filterMap_append]
  simp

/-- Pass lists that agree on enabled passes contribute the same entries to the
resolver input. -/
theorem filterMap_passFilter_congr {l1 l2 : List (Nat × (GraphBuilder → GraphBuilder))}
    (hf : List.Forall₂ setupAgrees l1 l2) :
    l1.filterMap passFilter = l2.filterMap passFilter := by
  induction hf with
  | nil => rfl
  | cons hpq htail ih =>
    rename_i p q l1' l2'
    obtain ⟨hid, hcase⟩ := hpq
    simp only [List.filterMap_cons]
    have hpf : passFilter p = passFilter q := by
      unfold passFilter
      cases hcase with
      | inl heq => rw [heq, hid]
      | inr hdis => rw [if_neg (by simp [hdis.1]), if_neg (by simp [hdis.2])]
    rw [hpf, ih]

/-- C7: a pass's builder is disabled by default (`GraphBuilder::new`), the
resolver input is exactly the builders of enabled passes, and a disabled
pass's declarations influence neither the input set nor any observable
outcome of `compile` — in particular they produce no compile error, even when
the disabled pass declares reads of names no pass produces. -/
theorem disabled_pass_contributes_nothing {E U I A : Type} (env : GraphEnv E U I A)
    (bu : BackbufferUsage U) (g g2 : GraphModel E)
    (hgfx : List.Forall₂ setupAgrees g.passes_gfx g2.passes_gfx)
    (hcmpt : List.Forall₂ setupAgrees g.passes_cmpt g2.passes_cmpt)
    (hout : g.output_resources = g2.output_resources)
    (hrc : g.resolve_cache = g2.resolve_cache)
    (hec : g.exec_id_cache = g2.exec_id_cache)
    (hgc : g.exec_graph_cache = g2.exec_graph_cache) :
    GraphBuilder.new.enabled = false ∧
    g.compileInput = (g.passes_gfx ++ g.passes_cmpt).filterMap passFilter ∧
    g.compileInput = g2.compileInput ∧
    (g.compile env bu).result = (g2.compile env bu).result ∧
    (g.compile env bu).resolved = (g2.compile env bu).resolved ∧
    (g.compile env bu).resolvedId = (g2.compile env bu).resolvedId ∧
    (g.compile env bu).execId = (g2.compile env bu).execId ∧
    (g.compile env bu).backbufferUsage = (g2.compile env bu).backbufferUsage := by
  have hin : g.compileInput = g2.compileInput := by
    rw [compileInput_eq, compileInput_eq, List.filterMap_append, List.filterMap_append,
      filterMap_passFilter_congr hgfx, filterMap_passFilter_congr hcmpt]
  refine ⟨rfl, compileInput_eq g, hin, ?_, ?_, ?_, ?_, ?_⟩ <;>
  · unfold GraphModel.compile
    rw [hin, hout, hrc, hec, hgc]

/-- Witness for C7: a graph whose only (compute) pass stays disabled while
declaring a read of the name "missing" — which no pass produces — compiles
without error with an empty resolver input. -/
theorem disabled_pass_contributes_nothing_witness :
    (GraphModel.compile
      (⟨fun _ => 0, fun _ => (⟨[]⟩, []), fun _ _ => (), fun _ _ => (), fun d => d,
        fun _ _ => ()⟩ : GraphEnv Unit Unit Unit Unit)
      ⟨[], ()⟩
      ⟨[], [(0, fun b => GraphBuilder.image_read b "missing" 0)], [], [], [], [],
        none, none⟩).result = Except.ok () ∧
    (⟨[], [(0, fun b => GraphBuilder.image_read b "missing" 0)], [], [], [], [],
      none, none⟩ : GraphModel Unit).compileInput = [] := by
  have W := disabled_pass_contributes_nothing
    (⟨fun _ => 0, fun _ => (⟨[]⟩, []), fun _ _ => (), fun _ _ => (), fun d => d,
      fun _ _ => ()⟩ : GraphEnv Unit Unit Unit Unit)
    ⟨[], ()⟩
    ⟨[], [(0, fun b => GraphBuilder.image_read b "missing" 0)], [], [], [], [], none, none⟩
    ⟨[], [(0, fun b => b)], [], [], [], [], none, none⟩
    List.Forall₂.nil
    (List.Forall₂.cons ⟨rfl, Or.inr ⟨rfl, rfl⟩⟩ List.Forall₂.nil)
    rfl rfl rfl rfl
  constructor
  · rw [W.2.2.2.1]
    rfl
  · rw [W.2.2.1]
    rfl

/-- After a compile, the caches contain the identities the compile used: the
resolved graph and its id under the input hash, the execution id under
(resolved id, output list), and an execution graph under the execution id. -/
theorem compile_cache_lookups {E U I A : Type} (env : GraphEnv E U I A)
    (bu : BackbufferUsage U) (g : GraphModel E) :
    alookup (g.compile env bu).graph.resolve_cache (env.hashInput g.compileInput) =
      some ((g.compile env bu).resolved, (g.compile env bu).resolvedId) ∧
    alookup (g.compile env bu).graph.exec_id_cache
      ((g.compile env bu).resolvedId, g.output_resources) =
      some ((g.compile env bu).execId) ∧
    (∃ e, alookup (g.compile env bu).graph.exec_graph_cache (g.compile env bu).execId =
      some e) := by
  unfold GraphModel.compile
  simp only []
  cases hx : alookup g.resolve_cache (env.hashInput g.compileInput) with
  | some ri =>
    obtain ⟨r, i⟩ := ri
    simp only []
    cases hy : alookup g.exec_id_cache (i, g.output_resources) with
    | some e =>
      simp only []
      cases hz : alookup g.exec_graph_cache e with
      | some eg => exact ⟨hx, hy, eg, hz⟩
      | none => exact ⟨hx, hy, _, alookup_append_self _ _ _ hz⟩
    | none =>
      simp only []
      cases hz : alookup g.exec_graph_cache g.exec_id_cache.length with
      | some eg => exact ⟨hx, alookup_append_self _ _ _ hy, eg, hz⟩
      | none => exact ⟨hx, alookup_append_self _ _ _ hy, _, alookup_append_self _ _ _ hz⟩
  | none =>
    simp only []
    cases hy : alookup g.exec_id_cache (g.resolve_cache.length, g.output_resources) with
    | some e =>
      simp only []
      cases hz : alookup g.exec_graph_cache e with
      | some eg => exact ⟨alookup_append_self _ _ _ hx, hy, eg, hz⟩
      | none => exact ⟨alookup_append_self _ _ _ hx, hy, _, alookup_append_self _ _ _ hz⟩
    | none =>
      simp only []
      cases hz : alookup g.exec_graph_cache g.exec_id_cache.length with
      | some eg => exact ⟨alookup_append_self _ _ _ hx, alookup_append_self _ _ _ hy, eg, hz⟩
      | none =>
        exact ⟨alookup_append_self _ _ _ hx, alookup_append_self _ _ _ hy, _,
          alookup_append_self _ _ _ hz⟩

/-- C4: compiling the same graph twice (identical declaration sets, hence the
same content hash, and the same output list) yields the same resolved-graph
identity, the same resolved table and the same execution identity the second
time, and every cache is left exactly as the first compile left it — both
lookups hit, no duplicate entry is inserted into the resolve cache, the
execution-id cache, or the execution-graph cache. -/
theorem compile_idempotent_cache_hit {E U I A : Type} (env : GraphEnv E U I A)
    (bu : BackbufferUsage U) (g : GraphModel E) :
    ((g.compile env bu).graph.compile env (g.compile env bu).backbufferUsage).resolvedId =
      (g.compile env bu).resolvedId ∧
    ((g.compile env bu).graph.compile env (g.compile env bu).backbufferUsage).resolved =
      (g.compile env bu).resolved ∧
    ((g.compile env bu).graph.compile env (g.compile env bu).backbufferUsage).execId =
      (g.compile env bu).execId ∧
    ((g.compile env bu).graph.compile env (g.compile env bu).backbufferUsage).graph.resolve_cache =
      (g.compile env bu).graph.resolve_cache ∧
    ((g.compile env bu).graph.compile env (g.compile env bu).backbufferUsage).graph.exec_id_cache =
      (g.compile env bu).graph.exec_id_cache ∧
    ((g.compile env bu).graph.compile env
        (g.compile env bu).backbufferUsage).graph.exec_graph_cache =
      (g.compile env bu).graph.exec_graph_cache := by
  obtain ⟨h1, h2, e, h3⟩ := compile_cache_lookups env bu g
  set o := g.compile env bu with ho
  have hci : o.graph.compileInput = g.compileInput := rfl
  have hor : o.graph.output_resources = g.output_resources := rfl
  unfold GraphModel.compile
  rw [hci, hor]
  simp only []
  rw [h1]
  simp only []
  rw [h2]
  simp only []
  rw [h3]
  simp only []
  exact ⟨trivial, trivial, trivial, trivial, trivial, trivial⟩

/-! ## Claim C5 : error collection -/

/-- The result of a compile call is `Ok` precisely when the collected error
list (resolution errors followed by missing-output errors) is empty, and
otherwise carries exactly that list; the resolved table is the one the resolve
step produced. -/
theorem compile_result_errors {E U I A : Type} (env : GraphEnv E U I A)
    (bu : BackbufferUsage U) (g : GraphModel E) :
    (g.compile env bu).result =
      (if (compileErrorsOf env g).isEmpty then Except.ok ()
       else Except.error (compileErrorsOf env g)) ∧
    (g.compile env bu).resolved = (resolveStepOf env g).1 := by
  unfold GraphModel.compile compileErrorsOf resolveStepOf outputErrorsOf
  simp only []
  cases hx : alookup g.resolve_cache (env.hashInput g.compileInput) with
  | some ri =>
    obtain ⟨r, i⟩ := ri
    simp only []
    refine ⟨?_, ?_⟩ <;> trivial
  | none =>
    simp only []
    refine ⟨?_, ?_⟩ <;> trivial

/-- A requested output name absent from the resolved table contributes its
`InvalidOutputResource` error. -/
theorem mem_outputErrorsOf {resolved : Resolved} {outputs : List ResourceName}
    {out : ResourceName} (hmem : out ∈ outputs)
    (hmiss : alookup resolved.name_lookup out = none) :
    GraphCompileError.invalidOutputResource out ∈ outputErrorsOf resolved outputs := by
  unfold outputErrorsOf
  rw [List.mem_filterMap]
  refine ⟨out, hmem, ?_⟩
  rw [hmiss]
  simp

/-- C5: `compile` returns `Ok` exactly when the collected error list is empty
and otherwise returns the complete collected list (never an empty error
list); a stale or unknown graph handle yields exactly `[InvalidGraph]`; one
`InvalidOutputResource` error is recorded for every requested output name
absent from the resolved table and all of them are in the returned list; on a
success every output resolves; and on a fresh resolve the collected list is
the resolver's errors followed by the missing-output errors, returned
together. -/
theorem compile_collects_all_errors {E U I A : Type} (env : GraphEnv E U I A)
    (bu : BackbufferUsage U) (gs : Storage (GraphModel E)) (hg : Handle)
    (g : GraphModel E) :
    (gs.get hg = none →
      GraphStorage.compile env bu gs hg =
        (Except.error [GraphCompileError.invalidGraph], gs, bu)) ∧
    ((g.compile env bu).result = Except.ok () ↔ compileErrorsOf env g = []) ∧
    (∀ errs, (g.compile env bu).result = Except.error errs →
      errs = compileErrorsOf env g ∧ errs ≠ []) ∧
    (∀ out, out ∈ g.output_resources →
      alookup (g.compile env bu).resolved.name_lookup out = none →
      ∃ errs, (g.compile env bu).result = Except.error errs ∧
        GraphCompileError.invalidOutputResource out ∈ errs) ∧
    ((g.compile env bu).result = Except.ok () →
      ∀ out, out ∈ g.output_resources →
        (alookup (g.compile env bu).resolved.name_lookup out).isSome) ∧
    (alookup g.resolve_cache (env.hashInput g.compileInput) = none →
      compileErrorsOf env g =
        (env.resolveInput g.compileInput).2 ++
          outputErrorsOf (env.resolveInput g.compileInput).1 g.output_resources) := by
  obtain ⟨hres, hresolved⟩ := compile_result_errors env bu g
  refine ⟨?_, ?_, ?_, ?_, ?_, ?_⟩
  · intro hnone
    unfold GraphStorage.compile
    rw [hnone]
  · rw [hres]
    cases hE : (compileErrorsOf env g).isEmpty with
    | true =>
      simp only [if_pos rfl, List.isEmpty_iff] at hE ⊢
      simp [hE]
    | false =>
      rw [if_neg (by simp [hE])]
      constructor
      · intro hc
        exact Except.noConfusion hc
      · intro hc
        rw [hc] at hE
        simp at hE
  · intro errs hE
    rw [hres] at hE
    cases hEmpty : (compileErrorsOf env g).isEmpty with
    | true =>
      rw [if_pos (by simp [hEmpty])] at hE
      exact Except.noConfusion hE
    | false =>
      rw [if_neg (by simp [hEmpty])] at hE
      injection hE with hE
      subst hE
      refine ⟨rfl, ?_⟩
      intro hc
      rw [hc] at hEmpty
      simp at hEmpty
  · intro out hmem hmiss
    rw [hresolved] at hmiss
    have hin : GraphCompileError.invalidOutputResource out ∈ compileErrorsOf env g := by
      unfold compileErrorsOf
      rw [List.mem_append]
      exact Or.inr (mem_outputErrorsOf hmem hmiss)
    have hne : ¬ (compileErrorsOf env g).isEmpty := by
      cases hE : (compileErrorsOf env g).isEmpty with
      | true =>
        rw [List.isEmpty_iff] at hE
        rw [hE] at hin
        simp at hin
      | false => simp
    refine ⟨compileErrorsOf env g, ?_, hin⟩
    rw [hres, if_neg hne]
  · intro hok out hmem
    rw [hres] at hok
    cases hE : (compileErrorsOf env g).isEmpty with
    | false =>
      rw [if_neg (by simp [hE])] at hok
      exact Except.noConfusion hok
    | true =>
      rw [List.isEmpty_iff] at hE
      unfold compileErrorsOf at hE
      rw [List.append_eq_nil] at hE
      have hout := hE.2
      unfold outputErrorsOf at hout
      rw [List.filterMap_eq_nil_iff] at hout
      have hf := hout out hmem
      rw [hresolved]
      cases hS : (alookup (resolveStepOf env g).1.name_lookup out).isSome with
      | true => rfl
      | false =>
        rw [hS] at hf
        simp at hf
  · intro hx
    unfold compileErrorsOf resolveStepOf
    rw [hx]

/-- Witness for C5: on a graph with no passes, one requested output "out",
an empty resolve cache and a resolver that reports one unresolved name, the
compile result is the complete two-element error list; and looking up a handle
in an empty graph storage yields exactly `[InvalidGraph]`. -/
theorem compile_collects_all_errors_witness :
    (GraphStorage.compile (unitEnv ⟨[]⟩ [GraphCompileError.unresolvedName "r"]) ⟨[], ()⟩
      Storage.new ⟨0, 0⟩ =
      (Except.error [GraphCompileError.invalidGraph], Storage.new, ⟨[], ()⟩)) ∧
    ([GraphCompileError.unresolvedName "r", GraphCompileError.invalidOutputResource "out"] =
        compileErrorsOf (unitEnv ⟨[]⟩ [GraphCompileError.unresolvedName "r"])
          ⟨[], [], ["out"], [], [], [], none, none⟩ ∧
      [GraphCompileError.unresolvedName "r",
        GraphCompileError.invalidOutputResource "out"] ≠ []) ∧
    (∃ errs,
      (GraphModel.compile (unitEnv ⟨[]⟩ [GraphCompileError.unresolvedName "r"]) ⟨[], ()⟩
        ⟨[], [], ["out"], [], [], [], none, none⟩).result = Except.error errs ∧
      GraphCompileError.invalidOutputResource "out" ∈ errs) := by
  have W := compile_collects_all_errors
    (unitEnv ⟨[]⟩ [GraphCompileError.unresolvedName "r"]) ⟨[], ()⟩
    (Storage.new (T := GraphModel Unit)) ⟨0, 0⟩
    ⟨[], [], ["out"], [], [], [], none, none⟩
  exact ⟨W.1 rfl, W.2.2.1 _ rfl, W.2.2.2.1 "out" (by simp) rfl⟩

/-! ## Claims C6 and C10 : execution-time resource reuse and backbuffer
registration -/

theorem registerBackbuffer_spec {E U I A : Type} (env : GraphEnv E U I A)
    (resolved : Resolved) (execId : Nat) (bb : Backbuffer U I) :
    (registerBackbuffer env resolved execId bb).1.exec_contexts = bb.exec_contexts ∧
    execId ∈ (registerBackbuffer env resolved execId bb).1.usage.exec_ids ∧
    ((registerBackbuffer env resolved execId bb).2 = false ↔
      execId ∈ bb.usage.exec_ids) := by
  unfold registerBackbuffer
  by_cases hmem : execId ∈ bb.usage.exec_ids
  · rw [if_pos hmem]
    exact ⟨rfl, hmem, by simp [hmem]⟩
  · rw [if_neg hmem]
    exact ⟨rfl, mem_sinsert_self _ _, by simp [hmem]⟩

theorem applyContext_spec {E U I A : Type} (env : GraphEnv E U I A) (execId : Nat)
    (context : ExecutionContext) (bb : Backbuffer U I) (remake : Bool) :
    ((applyContext env execId context bb remake).2 = false ↔
      (remake = false ∧ alookup bb.exec_contexts execId = some context)) ∧
    (applyContext env execId context bb remake).1.usage = bb.usage := by
  unfold applyContext
  by_cases hc : alookup bb.exec_contexts execId = some context
  · rw [if_pos hc]
    exact ⟨by simp [hc], rfl⟩
  · rw [if_neg hc]
    exact ⟨by simp [hc], rfl⟩

/-- Full characterisation of a successful `executeRes` call: the graph handle
resolved, the remake flag is clear exactly when the execution identity was
already registered and the recorded context matches, the identity is
registered afterwards, reuse hands back `prev_res` only under the three-part
condition, and a rebuild produces resources instantiated for the current
(execution identity, context) pair, releasing the previously held ones. -/
theorem executeRes_spec {E U I A : Type} (env : GraphEnv E U I A)
    (gs : Storage (GraphModel E)) (hg : Handle) (backbuffer : Backbuffer U I)
    (prevRes : Option (GraphResourcesM A)) (context : ExecutionContext)
    (o : ExecOutcome U I A)
    (hex : GraphStorage.executeRes env gs hg backbuffer prevRes context = some o) :
    ∃ g, gs.get hg = some g ∧
      (o.remakeForced = false ↔
        (o.execId ∈ backbuffer.usage.exec_ids ∧
         alookup backbuffer.exec_contexts o.execId = some context)) ∧
      o.execId ∈ o.backbuffer.usage.exec_ids ∧
      (o.reused = true →
        prevRes = some o.resources ∧
        some o.resources.exec_version = g.last_exec ∧
        o.resources.exec_context = context ∧
        o.remakeForced = false ∧
        o.releasedPrev = false) ∧
      (o.reused = false →
        o.resources.exec_version = o.execId ∧
        o.resources.exec_context = context ∧
        o.resources.payload = env.prepare o.execId context ∧
        (prevRes = none → o.releasedPrev = false) ∧
        (∀ res, prevRes = some res → o.releasedPrev = true)) := by
  unfold GraphStorage.executeRes at hex
  cases hgget : gs.get hg with
  | none =>
    rw [hgget] at hex
    simp only [Option.bind_eq_bind, Option.none_bind] at hex
    exact Option.noConfusion hex
  | some g =>
  rw [hgget] at hex
  simp only [Option.bind_eq_bind, Option.some_bind] at hex
  cases hlin : g.last_input with
  | none =>
    rw [hlin] at hex
    simp only [Option.bind_eq_bind, Option.none_bind] at hex
    exact Option.noConfusion hex
  | some ih =>
  rw [hlin] at hex
  simp only [Option.bind_eq_bind, Option.some_bind] at hex
  cases hri : alookup g.resolve_cache ih with
  | none =>
    rw [hri] at hex
    simp only [Option.bind_eq_bind, Option.none_bind] at hex
    exact Option.noConfusion hex
  | some ri =>
  rw [hri] at hex
  simp only [Option.bind_eq_bind, Option.some_bind] at hex
  cases hei : alookup g.exec_id_cache (ri.2, g.output_resources) with
  | none =>
    rw [hei] at hex
    simp only [Option.bind_eq_bind, Option.none_bind] at hex
    exact Option.noConfusion hex
  | some execId =>
  rw [hei] at hex
  simp only [Option.bind_eq_bind, Option.some_bind] at hex
  cases heg : alookup g.exec_graph_cache execId with
  | none =>
    rw [heg] at hex
    simp only [Option.bind_eq_bind, Option.none_bind] at hex
    exact Option.noConfusion hex
  | some eg =>
  rw [heg] at hex
  simp only [Option.bind_eq_bind, Option.some_bind] at hex
  cases hout : g.output_resources.mapM (fun n => alookup ri.1.name_lookup n) with
  | none =>
    rw [hout] at hex
    simp only [Option.bind_eq_bind, Option.none_bind] at hex
    exact Option.noConfusion hex
  | some outputs =>
  rw [hout] at hex
  simp only [Option.bind_eq_bind, Option.some_bind] at hex
  obtain ⟨hregc, hregm, hregi⟩ := registerBackbuffer_spec env ri.1 execId backbuffer
  obtain ⟨happi, happu⟩ := applyContext_spec env execId context
    (registerBackbuffer env ri.1 execId backbuffer).1
    (registerBackbuffer env ri.1 execId backbuffer).2
  refine ⟨g, rfl, ?_⟩
  cases prevRes with
  | none =>
    simp only [] at hex
    injection hex with hex
    subst hex
    refine ⟨?_, ?_, ?_, ?_⟩
    · rw [happi, hregi, hregc]
    · rw [happu]
      exact hregm
    · intro hc
      exact Bool.noConfusion hc
    · intro hc
      exact ⟨rfl, rfl, rfl, fun hc2 => rfl, fun res hc2 => Option.noConfusion hc2⟩
  | some res =>
    simp only [] at hex
    by_cases hcond : some res.exec_version = g.last_exec ∧ res.exec_context = context ∧
        (applyContext env execId context (registerBackbuffer env ri.1 execId backbuffer).1
          (registerBackbuffer env ri.1 execId backbuffer).2).2 = false
    · rw [if_pos hcond] at hex
      injection hex with hex
      subst hex
      refine ⟨?_, ?_, ?_, ?_⟩
      · rw [happi, hregi, hregc]
      · rw [happu]
        exact hregm
      · intro hc
        exact ⟨rfl, hcond.1, hcond.2.1, hcond.2.2, rfl⟩
      · intro hc
        exact Bool.noConfusion hc
    · rw [if_neg hcond] at hex
      injection hex with hex
      subst hex
      refine ⟨?_, ?_, ?_, ?_⟩
      · rw [happi, hregi, hregc]
      · rw [happu]
        exact hregm
      · intro hc
        exact Bool.noConfusion hc
      · intro hc
        exact ⟨rfl, rfl, rfl, fun hc2 => Option.noConfusion hc2, fun r hc2 => rfl⟩

/-- C6: previously held `GraphResources` are reused only when their recorded
execution identity equals the graph's `last_exec`, their recorded context
equals the current one, and no backbuffer mismatch forced a remake (the
identity registered and its recorded context equal to the current one); on
any mismatch the old resources are released and fresh ones are instantiated
for the current (execution identity, context) pair, so two executions of the
same compiled graph that differ only in execution context never reuse the
previously sized resources. -/
theorem execute_reuse_requires_matching_identity_and_context {E U I A : Type}
    (env : GraphEnv E U I A) (gs : Storage (GraphModel E)) (hg : Handle)
    (backbuffer : Backbuffer U I) (prevRes : Option (GraphResourcesM A))
    (context : ExecutionContext) (o : ExecOutcome U I A)
    (hex : GraphStorage.executeRes env gs hg backbuffer prevRes context = some o) :
    (o.reused = true →
      prevRes = some o.resources ∧
      (∃ g, gs.get hg = some g ∧ some o.resources.exec_version = g.last_exec) ∧
      o.resources.exec_context = context ∧
      o.remakeForced = false ∧
      o.execId ∈ backbuffer.usage.exec_ids ∧
      alookup backbuffer.exec_contexts o.execId = some context) ∧
    (o.reused = false →
      o.resources.exec_version = o.execId ∧
      o.resources.exec_context = context ∧
      o.resources.payload = env.prepare o.execId context ∧
      (∀ res, prevRes = some res → o.releasedPrev = true)) ∧
    (∀ res, prevRes = some res → res.exec_context ≠ context →
      o.reused = false ∧ o.resources.exec_context = context) := by
  obtain ⟨g, hgget, hiff, hmem, hreuse, hfresh⟩ :=
    executeRes_spec env gs hg backbuffer prevRes context o hex
  refine ⟨?_, ?_, ?_⟩
  · intro hr
    obtain ⟨hprev, hver, hctx, hrm, hrel⟩ := hreuse hr
    exact ⟨hprev, ⟨g, hgget, hver⟩, hctx, hrm, (hiff.mp hrm).1, (hiff.mp hrm).2⟩
  · intro hr
    obtain ⟨h1, h2, h3, _, h5⟩ := hfresh hr
    exact ⟨h1, h2, h3, h5⟩
  · intro res hprev hctxne
    cases hr : o.reused with
    | false => exact ⟨rfl, (hfresh hr).2.1⟩
    | true =>
      obtain ⟨hprev2, _, hctx, _, _⟩ := hreuse hr
      rw [hprev] at hprev2
      injection hprev2 with he
      rw [← he] at hctx
      exact absurd hctx hctxne

/-- Witness for C6: a compiled single-exec graph executed with context
(100, 100) while the previous resources and the backbuffer record context
(800, 600): the old resources are not reused and the fresh ones carry the new
context. -/
theorem execute_reuse_requires_matching_identity_and_context_witness :
    GraphStorage.executeRes (unitEnv ⟨[]⟩ [])
      ⟨[0], ⟨[SlabEntry.occupied
        ⟨[], [], [], [(0, ⟨[]⟩, 0)], [((0, []), 0)], [(0, ())], some 0, some 0⟩], 1, 1⟩⟩
      ⟨0, 0⟩
      ⟨⟨[0], ()⟩, [(0, ⟨(800, 600)⟩)], ()⟩
      (some ⟨0, ⟨(800, 600)⟩, (), []⟩)
      ⟨(100, 100)⟩ =
      some ⟨⟨0, ⟨(100, 100)⟩, (), []⟩, ⟨⟨[0], ()⟩, [(0, ⟨(100, 100)⟩)], ()⟩, 0,
        true, false, true⟩ ∧
    (false = false ∧ (⟨0, ⟨(100, 100)⟩, (), []⟩ : GraphResourcesM Unit).exec_context =
      ⟨(100, 100)⟩) := by
  refine ⟨rfl, ?_⟩
  exact (execute_reuse_requires_matching_identity_and_context (unitEnv ⟨[]⟩ [])
    ⟨[0], ⟨[SlabEntry.occupied
      ⟨[], [], [], [(0, ⟨[]⟩, 0)], [((0, []), 0)], [(0, ())], some 0, some 0⟩], 1, 1⟩⟩
    ⟨0, 0⟩
    ⟨⟨[0], ()⟩, [(0, ⟨(800, 600)⟩)], ()⟩
    (some ⟨0, ⟨(800, 600)⟩, (), []⟩)
    ⟨(100, 100)⟩
    ⟨⟨0, ⟨(100, 100)⟩, (), []⟩, ⟨⟨[0], ()⟩, [(0, ⟨(100, 100)⟩)], ()⟩, 0, true, false, true⟩
    rfl).2.2 ⟨0, ⟨(800, 600)⟩, (), []⟩ rfl (by decide)

/-- The backbuffer usage a compile call returns: touched only through the
branch that requires the execution id to be present already. -/
theorem compile_backbuffer_eq {E U I A : Type} (env : GraphEnv E U I A)
    (bu : BackbufferUsage U) (g : GraphModel E) :
    (g.compile env bu).backbufferUsage =
      (if (g.compile env bu).execId ∈ bu.exec_ids then
        ⟨sinsert bu.exec_ids (g.compile env bu).execId,
         env.addGraph bu.usage ((g.compile env bu).resolved)⟩
       else bu) := by
  unfold GraphModel.compile
  rfl

/-- C10: `compile` never registers a new execution identity with the
backbuffer usage cache — its registration branch runs only when the identity
is already in the id set, so the id set is never changed by a compile and the
whole usage state is unchanged whenever the identity is previously unseen;
first-time registration, which forces resource recreation, happens only in
`execute`. -/
theorem compile_never_registers_new_backbuffer_exec_id {E U I A : Type}
    (env : GraphEnv E U I A) (bu : BackbufferUsage U) (g : GraphModel E)
    (gs : Storage (GraphModel E)) (hg : Handle) (backbuffer : Backbuffer U I)
    (prevRes : Option (GraphResourcesM A)) (context : ExecutionContext) :
    (g.compile env bu).backbufferUsage.exec_ids = bu.exec_ids ∧
    ((g.compile env bu).execId ∉ bu.exec_ids →
      (g.compile env bu).backbufferUsage = bu) ∧
    (∀ o, GraphStorage.executeRes env gs hg backbuffer prevRes context = some o →
      o.execId ∉ backbuffer.usage.exec_ids →
      o.execId ∈ o.backbuffer.usage.exec_ids ∧ o.remakeForced = true) := by
  refine ⟨?_, ?_, ?_⟩
  · rw [compile_backbuffer_eq]
    by_cases hmem : (g.compile env bu).execId ∈ bu.exec_ids
    · rw [if_pos hmem]
      exact sinsert_of_mem hmem
    · rw [if_neg hmem]
  · intro hmem
    rw [compile_backbuffer_eq, if_neg hmem]
  · intro o hex hnot
    obtain ⟨g2, _, hiff, hmem, _, _⟩ :=
      executeRes_spec env gs hg backbuffer prevRes context o hex
    refine ⟨hmem, ?_⟩
    cases hr : o.remakeForced with
    | true => rfl
    | false => exact absurd (hiff.mp hr).1 hnot

/-- Witness for C10: compiling an empty graph against an empty backbuffer
usage cache leaves it untouched (the execution id 0 is previously unseen),
while executing a compiled graph against a backbuffer that has not seen id 0
registers it and forces a remake. -/
theorem compile_never_registers_new_backbuffer_exec_id_witness :
    (GraphModel.compile (unitEnv ⟨[]⟩ []) ⟨[], ()⟩
      ⟨[], [], [], [], [], [], none, none⟩).backbufferUsage = ⟨[], ()⟩ ∧
    (0 ∈ (⟨⟨[0], ()⟩, [(0, ⟨(800, 600)⟩)], ()⟩ : Backbuffer Unit Unit).usage.exec_ids ∧
      true = true) := by
  constructor
  · exact (compile_never_registers_new_backbuffer_exec_id (unitEnv ⟨[]⟩ []) ⟨[], ()⟩
      ⟨[], [], [], [], [], [], none, none⟩ Storage.new ⟨0, 0⟩ ⟨⟨[], ()⟩, [], ()⟩ none
      ⟨(800, 600)⟩).2.1 (by decide)
  · exact (compile_never_registers_new_backbuffer_exec_id (unitEnv ⟨[]⟩ []) ⟨[], ()⟩
      ⟨[], [], [], [], [], [], none, none⟩
      ⟨[0], ⟨[SlabEntry.occupied
        ⟨[], [], [], [(0, ⟨[]⟩, 0)], [((0, []), 0)], [(0, ())], some 0, some 0⟩], 1, 1⟩⟩
      ⟨0, 0⟩ ⟨⟨[], ()⟩, [], ()⟩ none ⟨(800, 600)⟩).2.2
      ⟨⟨0, ⟨(800, 600)⟩, (), []⟩, ⟨⟨[0], ()⟩, [(0, ⟨(800, 600)⟩)], ()⟩, 0, true, false, false⟩
      rfl (by decide)

/-! ## Claim C8 : descriptor-write emission -/

/-- C8: for every pass with a resolvable bound material the executor emits
descriptor writes exactly as follows — each resolved color-image read yields
an image-view write at its binding plus a separate sampler write at its
sampler slot; each storage-image read yields a single image-view write;
depth-stencil reads yield no descriptor write; and among resolved writes only
buffer-storage writes yield a descriptor write, while color and depth-stencil
image writes yield none. -/
theorem descriptor_writes_per_resolved_read_write :
    (∀ b s, readDescriptorWrites (ResourceReadType.image ImageReadType.color) b (some s) =
      some [DescriptorWrite.imageView b, DescriptorWrite.samplerAt s]) ∧
    (∀ b samp, readDescriptorWrites (ResourceReadType.image ImageReadType.storage) b samp =
      some [DescriptorWrite.imageView b]) ∧
    (∀ b samp,
      readDescriptorWrites (ResourceReadType.image ImageReadType.depthStencil) b samp =
        some []) ∧
    (∀ b, writeDescriptorWrite (ResourceWriteType.buffer BufferWriteType.storage) b =
      some (some (DescriptorWrite.bufferAt b))) ∧
    (∀ b, writeDescriptorWrite (ResourceWriteType.image ImageWriteType.color) b = some none) ∧
    (∀ b,
      writeDescriptorWrite (ResourceWriteType.image ImageWriteType.depthStencil) b =
        some none) ∧
    (∀ ty b w, writeDescriptorWrite ty b = some (some w) →
      ty = ResourceWriteType.buffer BufferWriteType.storage ∧
      w = DescriptorWrite.bufferAt b) := by
  refine ⟨fun b s => rfl, fun b samp => rfl, fun b samp => rfl, fun b => rfl, fun b => rfl,
    fun b => rfl, ?_⟩
  intro ty b w hw
  cases ty with
  | buffer bt =>
    cases bt with
    | storage =>
      refine ⟨rfl, ?_⟩
      injection hw with hw
      injection hw with hw
      exact hw.symm
    | uniform => exact Option.noConfusion hw
  | image it =>
    cases it with
    | color =>
      injection hw with hw
      exact Option.noConfusion hw
    | depthStencil =>
      injection hw with hw
      exact Option.noConfusion hw
    | storage => exact Option.noConfusion hw

/-- Witness for C8: a color read at binding 2 with sampler slot 5 yields the
image-view write and the sampler write, and the only write kind producing a
descriptor write at binding 3 is buffer-storage. -/
theorem descriptor_writes_per_resolved_read_write_witness :
    readDescriptorWrites (ResourceReadType.image ImageReadType.color) 2 (some 5) =
      some [DescriptorWrite.imageView 2, DescriptorWrite.samplerAt 5] ∧
    (ResourceWriteType.buffer BufferWriteType.storage =
        ResourceWriteType.buffer BufferWriteType.storage ∧
      DescriptorWrite.bufferAt 3 = DescriptorWrite.bufferAt 3) := by
  refine ⟨descriptor_writes_per_resolved_read_write.1 2 5, ?_⟩
  exact descriptor_writes_per_resolved_read_write.2.2.2.2.2.2
    (ResourceWriteType.buffer BufferWriteType.storage) 3 (DescriptorWrite.bufferAt 3) rfl

end Nitrogen
